import Mathlib

/-!
Verification development for the autonomous orchestrator and coder-agent
self-correction loop of this repository (sources/orchestrator.py and
sources/agents/code_agent.py).

Shallow embedding conventions:
* Python strings are `String`; `x in y` substring tests are `strContains`;
  `s.lower()` is `strLower`; `s[:n]` is `strTake s n`.
* Step identifiers are `Nat` (the code assigns them as `len(steps) + 1`,
  always positive); Python `str(step.id)` is `toString step.id`.
* Wall-clock timestamps (`time.time()`, elapsed-time text) and fire-and-forget
  notifier / logger / websocket calls are omitted: they carry no data used by
  any control-flow decision in the embedded functions.
* External collaborators (LLM workers, the sandbox / terminal, the browser
  agent) are modelled as oracle functions supplied as parameters; theorems
  quantify over all oracles, which covers every behaviour of the real
  collaborators, including raising (`AgentOutcome.exn`).
-/

/-! ## Generic string helpers (Python `in`, substring containment) -/

/-- Is `needle` a (contiguous) prefix of the character list? -/
def listPre : List Char → List Char → Bool
  | [], _ => true
  | _ :: _, [] => false
  | a :: as, b :: bs => a == b && listPre as bs

/-- Is `needle` a contiguous sublist of the haystack? (Python `needle in hay`.) -/
def listSub (needle : List Char) : List Char → Bool
  | [] => needle.isEmpty
  | hay@(_ :: t) => listPre needle hay || listSub needle t

/-- Python `needle in hay` on strings. -/
def strContains (hay needle : String) : Bool :=
  listSub needle.toList hay.toList

/-- Python `s.lower()` (character-wise; the source only lowers ASCII text). -/
def strLower (s : String) : String := String.mk (s.toList.map Char.toLower)

/-- Python `s.upper()`. -/
def strUpper (s : String) : String := String.mk (s.toList.map Char.toUpper)

/-- Python `s[:n]`. -/
def strTake (s : String) (n : Nat) : String := String.mk (s.toList.take n)

/-- Python `s.startswith(p)`. -/
def strIsPre (p s : String) : Bool := listPre p.toList s.toList

/-! ## Character classes for the regular expressions appearing in the source -/

/-- Python `\w` (ASCII range, which is all the source ever feeds it). -/
def isWordChar (c : Char) : Bool := c.isAlphanum || c == '_'

/-- Python `\s`. -/
def isSpaceChar (c : Char) : Bool :=
  c == ' ' || c == '\t' || c == '\n' || c == '\r' || c == '\x0b' || c == '\x0c'

/-- Case-insensitive literal match; returns the remainder of the haystack. -/
def litMatchCI : List Char → List Char → Option (List Char)
  | [], hay => some hay
  | _ :: _, [] => none
  | n :: ns, h :: hs => if n.toLower == h.toLower then litMatchCI ns hs else none

/-- Case-sensitive literal match; returns the remainder of the haystack. -/
def litMatchCS : List Char → List Char → Option (List Char)
  | [], hay => some hay
  | _ :: _, [] => none
  | n :: ns, h :: hs => if n == h then litMatchCS ns hs else none

/-- One attempt of `No module named ['\"]?(\w+)` (case-insensitive) at the head
of the list; returns the captured group. The optional-quote alternative
backtracks exactly as Python `re` does: if a quote is consumed but no word
character follows, the zero-width alternative also fails (a quote is not a
word character), so the whole position fails. -/
def matchNoModuleAt (cs : List Char) : Option (List Char) :=
  match litMatchCI "No module named ".toList cs with
  | none => none
  | some [] => none
  | some (q :: rest2) =>
    if q == '\'' || q == '"' then
      let w := rest2.takeWhile isWordChar
      if w.isEmpty then none else some w
    else
      let w := (q :: rest2).takeWhile isWordChar
      if w.isEmpty then none else some w

/-- `re.search` of `No module named ['\"]?(\w+)` (case-insensitive): first
matching position, scanning left to right. Used (a) with `re.IGNORECASE` in
`_handle_install_failure_with_browsing`, and (b) without the flag but on
already-lowercased text in `revise_plan` (where case-insensitive matching of
the all-lowercase literal coincides with case-sensitive matching). -/
def searchNoModule : List Char → Option String
  | [] => none
  | cs@(_ :: t) =>
    match matchNoModuleAt cs with
    | some w => some (String.mk w)
    | none => searchNoModule t

/-- One attempt of `No module named ['\"]([^'\"]+)['\"]` (case-sensitive) at the
head of the list. The greedy `[^'\"]+` runs to the next quote, which must
exist and be non-adjacent to the opening quote. -/
def matchNoModuleQuotedAt (cs : List Char) : Option (List Char) :=
  match litMatchCS "No module named ".toList cs with
  | none => none
  | some [] => none
  | some (q :: rest2) =>
    if q == '\'' || q == '"' then
      let w := rest2.takeWhile (fun c => !(c == '\'' || c == '"'))
      if w.isEmpty then none
      else if (rest2.drop w.length).isEmpty then none
      else some w
    else none

/-- `re.search` of `No module named ['\"]([^'\"]+)['\"]` (case-sensitive), as in
`CoderAgent._auto_install_from_error` and `_self_correct_execution`. -/
def searchNoModuleQuoted : List Char → Option String
  | [] => none
  | cs@(_ :: t) =>
    match matchNoModuleQuotedAt cs with
    | some w => some (String.mk w)
    | none => searchNoModuleQuoted t

/-- One attempt of `pip install (\w[\w\-]*)` (case-insensitive) at the head. -/
def matchPipInstallAt (cs : List Char) : Option (List Char) :=
  match litMatchCI "pip install ".toList cs with
  | some (c :: rest) =>
    if isWordChar c then some (c :: rest.takeWhile (fun x => isWordChar x || x == '-'))
    else none
  | _ => none

/-- `re.search` of `pip install (\w[\w\-]*)` (case-insensitive), the fallback
extraction in `_handle_install_failure_with_browsing`. -/
def searchPipInstall : List Char → Option String
  | [] => none
  | cs@(_ :: t) =>
    match matchPipInstallAt cs with
    | some w => some (String.mk w)
    | none => searchPipInstall t

/-! ### `re.findall` for the install-command patterns

`findAllGo` scans left to right; on a match it emits the matched text and
resumes after it (Python's non-overlapping `findall`). Fuel is the remaining
length; every step consumes at least one character, so the fuel never runs
out before the haystack does. -/

def findAllGo (matcher : List Char → Option (List Char × List Char)) :
    Nat → List Char → List (List Char)
  | 0, _ => []
  | _ + 1, [] => []
  | fuel + 1, cs@(_ :: t) =>
    match matcher cs with
    | some (m, rest) => m :: findAllGo matcher fuel rest
    | none => findAllGo matcher fuel t

def findAll (matcher : List Char → Option (List Char × List Char)) (cs : List Char) :
    List (List Char) :=
  findAllGo matcher cs.length cs

/-- Greedy `\s+` followed by a greedy nonempty run of `tokClass`; returns the
consumed characters and the rest, or fails. -/
def spacedToken (tokClass : Char → Bool) (cs : List Char) :
    Option (List Char × List Char) :=
  let sp := cs.takeWhile isSpaceChar
  if sp.isEmpty then none
  else
    let rest := cs.drop sp.length
    let tok := rest.takeWhile tokClass
    if tok.isEmpty then none
    else some (sp ++ tok, rest.drop tok.length)

/-- Greedy `(?:\s+[tokClass]+)*`: as many space-separated tokens as possible. -/
def starSpacedTokens (tokClass : Char → Bool) : Nat → List Char → List Char × List Char
  | 0, cs => ([], cs)
  | fuel + 1, cs =>
    match spacedToken tokClass cs with
    | none => ([], cs)
    | some (consumed, rest) =>
      let (more, rest') := starSpacedTokens tokClass fuel rest
      (consumed ++ more, rest')

/-- Character class `[\w\-\.\[\]>=<]` of the pip-command pattern. -/
def pipTokChar (c : Char) : Bool :=
  isWordChar c || c == '-' || c == '.' || c == '[' || c == ']' || c == '>' || c == '=' || c == '<'

/-- Character class `[\w\-]` of the apt-command pattern. -/
def aptTokChar (c : Char) : Bool := isWordChar c || c == '-'

/-- One attempt of `pip3?\s+install\s+[\w\-\.\[\]>=<]+(?:\s+[\w\-\.\[\]>=<]+)*`
at the head; returns (matched text, rest). -/
def matchPipCmdAt (cs : List Char) : Option (List Char × List Char) :=
  match litMatchCS "pip".toList cs with
  | none => none
  | some rest0 =>
    let (opt3, rest1) :=
      match rest0 with
      | '3' :: r => (['3'], r)
      | r => (([] : List Char), r)
    let sp1 := rest1.takeWhile isSpaceChar
    if sp1.isEmpty then none
    else
      match litMatchCS "install".toList (rest1.drop sp1.length) with
      | none => none
      | some rest2 =>
        let sp2 := rest2.takeWhile isSpaceChar
        if sp2.isEmpty then none
        else
          let rest3 := rest2.drop sp2.length
          let tok1 := rest3.takeWhile pipTokChar
          if tok1.isEmpty then none
          else
            let rest4 := rest3.drop tok1.length
            let (more, rest5) := starSpacedTokens pipTokChar rest4.length rest4
            some ("pip".toList ++ opt3 ++ sp1 ++ "install".toList ++ sp2 ++ tok1 ++ more, rest5)

/-- Core of the apt pattern after the optional `sudo\s+`:
`apt(?:-get)?\s+install\s+[\w\-]+(?:\s+[\w\-]+)*`, with the one backtracking
point of `(?:-get)?` implemented by trying the `-get` continuation first. -/
def matchAptCoreAt (cs : List Char) : Option (List Char × List Char) :=
  match litMatchCS "apt".toList cs with
  | none => none
  | some rest0 =>
    let tail : List Char → Option (List Char × List Char) := fun r =>
      let sp1 := r.takeWhile isSpaceChar
      if sp1.isEmpty then none
      else
        match litMatchCS "install".toList (r.drop sp1.length) with
        | none => none
        | some rest2 =>
          let sp2 := rest2.takeWhile isSpaceChar
          if sp2.isEmpty then none
          else
            let rest3 := rest2.drop sp2.length
            let tok1 := rest3.takeWhile aptTokChar
            if tok1.isEmpty then none
            else
              let rest4 := rest3.drop tok1.length
              let (more, rest5) := starSpacedTokens aptTokChar rest4.length rest4
              some (sp1 ++ "install".toList ++ sp2 ++ tok1 ++ more, rest5)
    match litMatchCS "-get".toList rest0 with
    | some rest1 =>
      match tail rest1 with
      | some (m, r) => some ("apt".toList ++ "-get".toList ++ m, r)
      | none =>
        match tail rest0 with
        | some (m, r) => some ("apt".toList ++ m, r)
        | none => none
    | none =>
      match tail rest0 with
      | some (m, r) => some ("apt".toList ++ m, r)
      | none => none

/-- One attempt of `(?:sudo\s+)?apt(?:-get)?\s+install\s+[\w\-]+(?:\s+[\w\-]+)*`. -/
def matchAptCmdAt (cs : List Char) : Option (List Char × List Char) :=
  match litMatchCS "sudo".toList cs with
  | some rest0 =>
    let sp := rest0.takeWhile isSpaceChar
    if sp.isEmpty then matchAptCoreAt cs
    else
      match matchAptCoreAt (rest0.drop sp.length) with
      | some (m, r) => some ("sudo".toList ++ sp ++ m, r)
      | none => matchAptCoreAt cs
  | none => matchAptCoreAt cs

/-- `re.findall(r'pip3?\s+install\s+[\w\-\.\[\]>=<]+(?:\s+[\w\-\.\[\]>=<]+)*', text)`. -/
def findAllPipCmds (text : String) : List String :=
  (findAll matchPipCmdAt text.toList).map String.mk

/-- `re.findall(r'(?:sudo\s+)?apt(?:-get)?\s+install\s+[\w\-]+(?:\s+[\w\-]+)*', text)`. -/
def findAllAptCmds (text : String) : List String :=
  (findAll matchAptCmdAt text.toList).map String.mk

/-! ## CoderAgent (sources/agents/code_agent.py) -/

/-- Outcome of invoking an external collaborator (`await x.process(...)` or
`llm_request`): either a returned answer together with the worker's success
flag, or a raised exception carrying its message text. -/
inductive AgentOutcome where
  | ok (answer : String) (success : Bool)
  | exn (msg : String)
deriving DecidableEq, Repr

/-- The fixed vocabulary of `CoderAgent._has_error_in_output`. -/
def error_indicators : List String :=
  ["Error", "Exception", "Traceback", "SyntaxError",
   "NameError", "TypeError", "ValueError", "ImportError",
   "ModuleNotFoundError", "AttributeError", "KeyError",
   "IndexError", "FileNotFoundError", "PermissionError",
   "RuntimeError", "OSError", "IOError", "ZeroDivisionError",
   "IndentationError", "UnboundLocalError"]

/-- `CoderAgent._has_error_in_output`: empty feedback is never failing;
otherwise case-sensitive substring search for any indicator (the source's
for-loop with early `return True` is `List.any`). -/
def has_error_in_output (feedback : String) : Bool :=
  if feedback == "" then false
  else error_indicators.any (fun ind => strContains feedback ind)

/-- `CoderAgent.self_correction_max`. -/
def self_correction_max : Nat := 3

/-- Python `group(1).split('.')[0]`. -/
def splitDotHead (s : String) : String :=
  String.mk (s.toList.takeWhile (fun c => !(c == '.')))

/-- The module-to-package alias table of `CoderAgent._auto_install_from_error`. -/
def pkg_map : List (String × String) :=
  [("bs4", "beautifulsoup4"), ("cv2", "opencv-python"), ("PIL", "Pillow"),
   ("sklearn", "scikit-learn"), ("yaml", "pyyaml"), ("dotenv", "python-dotenv"),
   ("gi", "PyGObject"), ("lxml", "lxml"), ("matplotlib", "matplotlib"),
   ("pandas", "pandas"), ("scipy", "scipy"), ("seaborn", "seaborn")]

/-- Python `pkg_map.get(module_name, module_name)`. -/
def pkg_map_lookup (module_name : String) : String :=
  match pkg_map.find? (fun p => p.1 == module_name) with
  | some p => p.2
  | none => module_name

/-- `CoderAgent._auto_install_from_error`. `installOk` is the external
`terminal.install_package(...)['success']`; `installed` models the
`installed_packages` set (membership is all that is read). Returns the
updated set and the boolean result. -/
def auto_install_from_error (installOk : String → Bool) (installed : List String)
    (error_text : String) : List String × Bool :=
  match searchNoModuleQuoted error_text.toList with
  | none => (installed, false)
  | some g =>
    let module_name := splitDotHead g
    if installed.contains module_name then (installed, false)
    else
      let pkg_name := pkg_map_lookup module_name
      if installOk pkg_name then (module_name :: installed, true)
      else (installed, false)

/-- `CoderAgent._browse_for_install_help`: no browser agent yields `""`; a
raised exception is swallowed to `""`; a truthy answer is truncated to 1000
characters, a falsy one yields `""`. -/
def browse_for_install_help (hasBrowser : Bool) (browse : String → AgentOutcome)
    (package_name : String) : String :=
  if !hasBrowser then ""
  else
    let search_query := "how to install " ++ package_name ++ " on Linux Ubuntu pip python"
    match browse search_query with
    | .exn _ => ""
    | .ok answer _ => if answer == "" then "" else strTake answer 1000

/-- `CoderAgent._build_self_correction_prompt`. -/
def build_self_correction_prompt (error_log : String)
    (correction_attempt max_corrections : Nat) (browser_info : String) : String :=
  let browser_context :=
    if browser_info == "" then ""
    else "\n\n🌐 INFORMASI DARI WEB BROWSER:\n" ++ browser_info ++ "\n" ++
      "Gunakan informasi di atas untuk memperbaiki kode.\n"
  "🔄 SELF-CORRECTION MODE (perbaikan " ++ toString correction_attempt ++ "/" ++
    toString max_corrections ++ ")\n\n" ++
  "Output sebelumnya mengandung ERROR:\n" ++
  "```\n" ++ strTake error_log 1500 ++ "\n```\n\n" ++
  browser_context ++
  "INSTRUKSI SELF-CORRECTION:\n" ++
  "1. Analisis error log di atas dengan TELITI\n" ++
  "2. Identifikasi AKAR PENYEBAB error\n" ++
  "3. Tulis ULANG kode yang SUDAH DIPERBAIKI secara LENGKAP\n" ++
  "4. Pastikan SEMUA import, syntax, dan logika benar\n" ++
  "5. Jika error berulang pada percobaan sebelumnya, GANTI PENDEKATAN sepenuhnya\n" ++
  "6. JANGAN jelaskan errornya, LANGSUNG tulis kode perbaikan\n" ++
  "7. INGAT: TANPA app.run(), TANPA Tkinter, TANPA server start\n" ++
  "8. Kamu HARUS menulis kode dalam blok ```bahasa:namafile"

/-- The missing-module remediation block at the top of each
`_self_correct_execution` attempt (code_agent.py lines 391-400): when the
lowered feedback carries a missing-module signature and the quoted regex
matches, the direct install is attempted first, and browser help is requested
only when that returned `False` and a browser agent is linked. Returns the
updated installed set, the `browser_info` string, and an instrumentation flag
recording whether browser help was requested at all (the browser may itself
answer `""`). -/
def scRemediation (installOk : String → Bool) (hasBrowser : Bool)
    (browse : String → AgentOutcome) (installed : List String)
    (current_feedback : String) : List String × String × Bool :=
  let feedback_lower := strLower current_feedback
  if strContains feedback_lower "no module named" ||
      strContains feedback_lower "modulenotfounderror" then
    match searchNoModuleQuoted current_feedback.toList with
    | some g =>
      let pkg_name := splitDotHead g
      let air := auto_install_from_error installOk installed current_feedback
      if !air.2 && hasBrowser then
        (air.1, browse_for_install_help hasBrowser browse pkg_name, true)
      else (air.1, "", false)
    | none => (installed, "", false)
  else (installed, "", false)

/-- Result of the self-correction loop, instrumented with the number of
regeneration (`llm_request`) calls performed. -/
structure SCOut where
  success : Bool
  answer : String
  feedback : String
  llmCalls : Nat
deriving DecidableEq, Repr

/-- The body of `CoderAgent._self_correct_execution`'s while-loop, by recursion
on the remaining attempts (`fuel = self_correction_max - correction_attempt`).
`llm i` is the regenerated answer of the i-th attempt (1-based); `execMod i`
is the `(exec_success, feedback)` pair that `execute_modules_with_sandbox`
produces for it. An answer with no ``` block skips execution and continues
(still consuming an attempt and leaving `last_answer`/`current_feedback`
untouched). -/
def selfCorrectGo (llm : Nat → String) (execMod : Nat → Bool × String)
    (installOk : String → Bool) (hasBrowser : Bool) (browse : String → AgentOutcome)
    (maxCorr : Nat) :
    Nat → Nat → List String → String → String → Nat → SCOut
  | 0, _, _, current_feedback, last_answer, calls =>
    { success := false, answer := last_answer, feedback := current_feedback,
      llmCalls := calls }
  | fuel + 1, attempt, installed, current_feedback, last_answer, calls =>
    let correction_attempt := attempt + 1
    let rem := scRemediation installOk hasBrowser browse installed current_feedback
    let _correction_prompt :=
      build_self_correction_prompt current_feedback correction_attempt maxCorr rem.2.1
    let answer := llm correction_attempt
    if strContains answer "```" then
      let er := execMod correction_attempt
      if er.1 && !(has_error_in_output er.2) then
        { success := true, answer := answer, feedback := er.2, llmCalls := calls + 1 }
      else
        selfCorrectGo llm execMod installOk hasBrowser browse maxCorr
          fuel correction_attempt rem.1 er.2 answer (calls + 1)
    else
      selfCorrectGo llm execMod installOk hasBrowser browse maxCorr
        fuel correction_attempt rem.1 current_feedback last_answer (calls + 1)

/-- `CoderAgent._self_correct_execution(original_answer, error_feedback)`. -/
def self_correct_execution (llm : Nat → String) (execMod : Nat → Bool × String)
    (installOk : String → Bool) (hasBrowser : Bool) (browse : String → AgentOutcome)
    (original_answer error_feedback : String) : SCOut :=
  selfCorrectGo llm execMod installOk hasBrowser browse self_correction_max
    self_correction_max 0 [] error_feedback original_answer 0

/-! ## Orchestrator data model (sources/orchestrator.py) -/

/-- `TaskStep` dataclass. `start_time`-style wall-clock data does not occur
here; dependencies are the step's list of identifier strings (Python declares
`List[str]` and compares via `str(...)` on both sides). -/
structure TaskStep where
  id : Nat
  description : String
  agent_type : String
  status : String := "pending"
  result : String := ""
  error : String := ""
  attempts : Nat := 0
  max_attempts : Nat := 3
  dependencies : List String := []
deriving DecidableEq, Repr

/-- `ExecutionPlan` dataclass (the `start_time : float` field is omitted:
wall-clock only). -/
structure ExecutionPlan where
  goal : String
  steps : List TaskStep := []
  current_step : Nat := 0
  completed : Bool := false
  reflection_log : List String := []
deriving DecidableEq, Repr

/-- Python `next((s for s in self.steps if str(s.id) == str(dep_id)), None)`:
the first step whose stringified identifier equals the dependency string. -/
def stepById (steps : List TaskStep) (dep_id : String) : Option TaskStep :=
  steps.find? (fun s => toString s.id == dep_id)

/-- The dependency test inside `ExecutionPlan.get_next_step`: a dependency
blocks only when it resolves to a step that is not completed (`if dep_step
and dep_step.status != "completed"`); an unresolvable identifier leaves
`deps_met` true. -/
def depMet (steps : List TaskStep) (dep_id : String) : Bool :=
  match stepById steps dep_id with
  | some dep_step => dep_step.status == "completed"
  | none => true

/-- A step is returned by the scheduler when it is pending and every
dependency passes `depMet` (the source's inner for-loop with early break). -/
def stepReady (steps : List TaskStep) (step : TaskStep) : Bool :=
  step.status == "pending" && step.dependencies.all (depMet steps)

/-- The scan of `get_next_step`: first ready step in plan order. -/
def findReady (all : List TaskStep) : List TaskStep → Option TaskStep
  | [] => none
  | s :: rest => if stepReady all s then some s else findReady all rest

/-- `ExecutionPlan.get_next_step`. -/
def get_next_step (p : ExecutionPlan) : Option TaskStep :=
  findReady p.steps p.steps

/-- Index-returning variant of the same scan, used by the run-loop embedding
to update the selected step in place. -/
def findReadyIdxAux (all : List TaskStep) : Nat → List TaskStep → Option Nat
  | _, [] => none
  | k, s :: rest => if stepReady all s then some k else findReadyIdxAux all (k + 1) rest

def findReadyIdx (steps : List TaskStep) : Option Nat :=
  findReadyIdxAux steps 0 steps

/-- `ExecutionPlan.is_complete` (on the steps list). -/
def is_complete (steps : List TaskStep) : Bool :=
  steps.all (fun s => s.status == "completed" || s.status == "failed")

/-- `ExecutionPlan.get_progress_text` (the elapsed-time line, pure wall-clock
output, is omitted). -/
def statusIcon (status : String) : String :=
  if status == "pending" then "..."
  else if status == "completed" then "[OK]"
  else if status == "failed" then "[X]"
  else if status == "running" then "[~]"
  else "..."

def get_progress_text (goal : String) (steps : List TaskStep) : String :=
  let lines := ("**Rencana: " ++ goal ++ "**\n") ::
    steps.map (fun step =>
      statusIcon step.status ++ " Langkah " ++ toString step.id ++ ": [" ++
      strUpper step.agent_type ++ "] " ++ step.description ++ " (" ++ step.status ++ ")")
  String.intercalate "\n" lines

/-! ## Plan construction (`create_plan_from_tasks`) -/

/-- The `need` entry of a task-info dict: either a plain string or a list. -/
inductive NeedField where
  | str (s : String)
  | list (l : List String)
deriving DecidableEq, Repr

/-- `deps = [deps] if deps else []` when the field is a string. -/
def normalizeNeed : NeedField → List String
  | .str s => if s == "" then [] else [s]
  | .list l => l

/-- One `(task_name, task_info)` pair of the `agent_tasks` argument. -/
structure AgentTaskInfo where
  task : Option String := none
  agent : Option String := none
  need : NeedField := .list []
deriving DecidableEq, Repr

/-- `AutonomousOrchestrator.create_plan_from_tasks` (steps list only; the
wall-clock `start_time` is omitted). Identifiers are `i + 1` in input order;
missing `task` falls back to the task name, missing `agent` to `"coder"`. -/
def create_plan_steps (agent_tasks : List (String × AgentTaskInfo)) : List TaskStep :=
  agent_tasks.enum.map (fun p =>
    { id := p.1 + 1,
      description := p.2.2.task.getD p.2.1,
      agent_type := p.2.2.agent.getD "coder",
      dependencies := normalizeNeed p.2.2.need })

/-! ## Reflection (`AutonomousOrchestrator.reflect`) -/

/-- `reflect(step, result, success)`: returns the updated step and the
reflection-log line. Success marks the step completed and stores the result;
failure increments the attempt counter and either re-pends the step (below
budget) or terminally fails it (budget reached), preserving the error text
in both cases. -/
def reflect (step : TaskStep) (result : String) (success : Bool) : TaskStep × String :=
  if success then
    ({ step with status := "completed", result := result },
     "Langkah " ++ toString step.id ++ " berhasil: " ++ step.description)
  else
    let att := step.attempts + 1
    if step.max_attempts ≤ att then
      ({ step with attempts := att, status := "failed", error := result },
       "Langkah " ++ toString step.id ++ " gagal setelah " ++ toString step.max_attempts ++
       " percobaan: " ++ step.description)
    else
      ({ step with attempts := att, status := "pending", error := result },
       "Langkah " ++ toString step.id ++ " gagal (percobaan " ++ toString att ++ "/" ++
       toString step.max_attempts ++ "), akan dicoba lagi")

/-! ## Plan revision (`AutonomousOrchestrator.revise_plan`) -/

/-- The repeated error-text suffix appended to every synthesized recovery
step's description (Python `(failed_step.error or 'Unknown error')[:500]`). -/
def error_suffix (failed_step : TaskStep) : String :=
  "\n\nERROR SEBELUMNYA:\n" ++
  strTake (if failed_step.error == "" then "Unknown error" else failed_step.error) 500 ++
  "\n" ++
  "INSTRUKSI: Gunakan pendekatan BERBEDA. Jangan ulangi cara yang sama. " ++
  "Kamu dilarang meminta klarifikasi, langsung eksekusi."

/-- The `alternative_agents` dict lookup with default `failed_step.agent_type`
(note: the default is the original, un-lowered tag). -/
def alternative_agent (agent_type : String) : String :=
  let t := strLower agent_type
  if t == "coder" then "file"
  else if t == "file" then "coder"
  else if t == "web" then "casual"
  else if t == "casual" then "coder"
  else agent_type

/-- Description of the synthesized browse step (missing-dependency branch). -/
def browse_step_description (module_name : String) : String :=
  "[MULTI-TOOL BROWSE] Cari cara install library '" ++ module_name ++ "' di Linux/Ubuntu. " ++
  "Cari di web: 'how to install " ++ module_name ++ " python pip Linux'. " ++
  "Catat perintah install yang benar."

/-- Base description of the synthesized retry step (missing-dependency
branch), before the error suffix is appended. -/
def retry_base_description (module_name : String) (failed_step : TaskStep) : String :=
  "[RECOVERY - INSTALL DEPENDENCY WITH BROWSER INFO] " ++
  "Gunakan informasi dari langkah browsing sebelumnya untuk install '" ++ module_name ++ "'. " ++
  "Lalu ulangi tugas asli: " ++ failed_step.description

/-- `revise_plan(failed_step)` on the plan's steps list. Five categories in
source priority order; every branch only appends new steps (never mutates or
removes existing ones). In the missing-dependency branch the retry step's
`id` is recomputed once more after the browse step is appended (the source's
redundant `retry_step.id = len(self.plan.steps) + 1`), giving `length + 2`. -/
def revise_plan (steps : List TaskStep) (failed_step : TaskStep) : List TaskStep :=
  let error_lower := strLower failed_step.error
  if strContains error_lower "no module named" || strContains error_lower "import" then
    let module_name := (searchNoModule error_lower.toList).getD "yang dibutuhkan"
    let browse_step : TaskStep :=
      { id := steps.length + 1,
        description := browse_step_description module_name,
        agent_type := "web",
        max_attempts := 2,
        dependencies := failed_step.dependencies }
    let steps1 := steps ++ [browse_step]
    let retry_step : TaskStep :=
      { id := steps1.length + 1,
        description := retry_base_description module_name failed_step ++ error_suffix failed_step,
        agent_type := "coder",
        max_attempts := 2,
        dependencies := [toString browse_step.id] }
    steps1 ++ [retry_step]
  else
    let ra_rd : String × String :=
      if strContains error_lower "permission" || strContains error_lower "access denied" then
        ("file",
         "[RECOVERY - FIX PERMISSIONS] " ++
         "Perbaiki permission/akses file yang bermasalah, " ++
         "lalu ulangi tugas: " ++ failed_step.description)
      else if strContains error_lower "syntax" || strContains error_lower "syntaxerror" then
        ("coder",
         "[RECOVERY - FIX SYNTAX] " ++
         "Perbaiki syntax error dalam kode. " ++
         "Baca file yang bermasalah, identifikasi error syntax, dan perbaiki. " ++
         "Tugas asli: " ++ failed_step.description)
      else if strContains error_lower "timeout" || strContains error_lower "connection" then
        ("web",
         "[RECOVERY - RETRY CONNECTION] " ++
         "Coba lagi dengan query pencarian berbeda atau URL alternatif. " ++
         "Tugas asli: " ++ failed_step.description)
      else
        (alternative_agent failed_step.agent_type,
         "[RECOVERY] Coba lagi dengan pendekatan berbeda: " ++ failed_step.description)
    steps ++
      [{ id := steps.length + 1,
         description := ra_rd.2 ++ error_suffix failed_step,
         agent_type := ra_rd.1,
         max_attempts := 2,
         dependencies := failed_step.dependencies }]

/-! ## Execution dispatcher (`AutonomousOrchestrator.execute_step`)

The worker registry is modelled by its ordered key list (Python dict keys in
insertion order); the workers themselves, the browser agent and the
persistent-memory store are oracles. -/

/-- Worker-tag resolution (orchestrator.py lines 260-267): exact lowered tag,
else first key that starts with the tag's first three characters, else the
fixed fallback `"coder"`. -/
def resolve_agent_key (agents : List String) (agent_type : String) : String :=
  let agent_key := strLower agent_type
  if agents.contains agent_key then agent_key
  else
    match agents.find? (fun key => strIsPre (strTake agent_key 3) key) with
    | some key => key
    | none => "coder"

/-- `self.agents[agent_key]`: `some` resolved key, or `none` for the KeyError
raised when the resolved key (in particular the `"coder"` fallback) is not in
the registry. -/
def resolve_agent (agents : List String) (agent_type : String) : Option String :=
  let agent_key := resolve_agent_key agents agent_type
  if agents.contains agent_key then some agent_key else none

/-- The `required_infos` block of the prompt (orchestrator.py lines 274-283);
note the source joins the parts with `''.join`, i.e. no separator. -/
def buildRequiredContext (required_infos : List (String × String)) (desc : String) : String :=
  "Konteks dari langkah sebelumnya:\n" ++
  String.join (required_infos.map (fun kv => "- Hasil langkah " ++ kv.1 ++ ": " ++ kv.2)) ++
  "\n\nTugas kamu sekarang:\n" ++ desc ++
  "\n\nINSTRUKSI: Langsung kerjakan tanpa bertanya. Gunakan informasi dari langkah sebelumnya."

/-- Prompt assembly of `execute_step` (lines 270-296). `rich_context` models
`_gather_rich_context()` and `memory_context` the persistent-memory recall:
both are opaque context strings folded into the prompt. -/
def buildStepPrompt (rich_context memory_context : String)
    (required_infos : List (String × String)) (step : TaskStep) : String :=
  let prompt := step.description
  let prompt := if required_infos.isEmpty then prompt
    else buildRequiredContext required_infos step.description
  let prompt := if rich_context == "" then prompt else rich_context ++ "\n\n" ++ prompt
  let prompt :=
    if step.error != "" && step.attempts > 0 then
      prompt ++ "\n\nPERINGATAN: Percobaan sebelumnya GAGAL dengan error:\n" ++
      strTake step.error 500 ++ "\n" ++
      "Gunakan PENDEKATAN BERBEDA kali ini. Jangan ulangi cara yang sama."
    else prompt
  if memory_context == "" then prompt else prompt ++ "\n" ++ memory_context

/-- `AutonomousOrchestrator._coder_browse_for_install`: empty when no `"web"`
worker is registered; a raised browse exception is swallowed to `""`; a
truthy answer is truncated to 1500 characters. -/
def coder_browse_for_install (agents : List String) (browseProc : String → AgentOutcome)
    (package_name : String) : String :=
  if !(agents.contains "web") then ""
  else
    let search_query := "install " ++ package_name ++ " python pip Linux Ubuntu error fix"
    match browseProc search_query with
    | .exn _ => ""
    | .ok answer _ => if answer == "" then "" else strTake answer 1500

/-- `AutonomousOrchestrator._handle_install_failure_with_browsing`. -/
def handle_install_failure_with_browsing (agents : List String)
    (browseProc : String → AgentOutcome) (step : TaskStep) (error_text : String) :
    Option String :=
  let error_lower := strLower error_text
  if !(strContains error_lower "no module named") &&
      !(strContains error_lower "pip install") &&
      !(strContains error_lower "modulenotfounderror") then none
  else
    let module_match :=
      match searchNoModule error_text.toList with
      | some m => some m
      | none => searchPipInstall error_text.toList
    match module_match with
    | none => none
    | some package_name =>
      let browse_result := coder_browse_for_install agents browseProc package_name
      if browse_result == "" then none
      else
        let install_commands := findAllPipCmds browse_result ++ findAllAptCmds browse_result
        if !install_commands.isEmpty then
          some ("Berdasarkan pencarian web, berikut cara install '" ++ package_name ++ "':\n" ++
            "Perintah yang ditemukan:\n" ++
            String.join ((install_commands.take 5).map (fun cmd => "  - " ++ cmd ++ "\n")) ++
            "\nInfo lengkap dari web:\n" ++ strTake browse_result 800 ++ "\n\n" ++
            "Coba install menggunakan perintah di atas, lalu ulangi tugas asli:\n" ++
            step.description)
        else
          some ("Info dari web tentang '" ++ package_name ++ "':\n" ++ strTake browse_result 800 ++
            "\n\n" ++
            "Gunakan informasi ini untuk memperbaiki instalasi, lalu ulangi tugas:\n" ++
            step.description)

/-- One `execution_memory` entry (the wall-clock timestamp is omitted). -/
structure MemEntry where
  step_id : Nat
  agent : String
  success : Bool
  answer_preview : String
  retry_with_browse : Bool := false
deriving DecidableEq, Repr

/-- Result of one dispatch, instrumented with the memory entries appended and
the prompts sent to the resolved worker (`calls`), in order. -/
structure ExecResult where
  result : String
  success : Bool
  memory : List MemEntry
  calls : List String
deriving DecidableEq, Repr

/-- `AutonomousOrchestrator.execute_step`. `proc` is the resolved worker's
`process` (fed the composed prompt) combined with its `get_success` flag;
`browseProc` is the `"web"` worker used by the browse-assisted remediation.
`none` models the KeyError escaping when worker resolution fails (that lookup
sits outside the `try`). A worker invocation that raises inside the `try` is
converted to `("Error: " ++ msg, false)`; the `persistent_memory.store_fact`
call on success is an external side effect with no bearing on the returned
data and is omitted. -/
def execute_step (agents : List String) (proc : String → AgentOutcome)
    (browseProc : String → AgentOutcome) (rich_context memory_context : String)
    (required_infos : List (String × String)) (step : TaskStep) : Option ExecResult :=
  match resolve_agent agents step.agent_type with
  | none => none
  | some agent_key =>
    let prompt := buildStepPrompt rich_context memory_context required_infos step
    match proc prompt with
    | .exn msg =>
      some { result := "Error: " ++ msg, success := false, memory := [], calls := [prompt] }
    | .ok answer success =>
      let entry1 : MemEntry :=
        { step_id := step.id, agent := agent_key, success := success,
          answer_preview := strTake answer 200 }
      if !success && agent_key == "coder" then
        match handle_install_failure_with_browsing agents browseProc step answer with
        | none =>
          some { result := answer, success := success, memory := [entry1], calls := [prompt] }
        | some browse_fix =>
          if browse_fix == "" then
            some { result := answer, success := success, memory := [entry1], calls := [prompt] }
          else
            match proc browse_fix with
            | .exn msg =>
              some { result := "Error: " ++ msg, success := false, memory := [entry1],
                     calls := [prompt, browse_fix] }
            | .ok a2 s2 =>
              some { result := a2, success := s2,
                     memory := [entry1,
                       { step_id := step.id, agent := agent_key, success := s2,
                         answer_preview := strTake a2 200, retry_with_browse := true }],
                     calls := [prompt, browse_fix] }
      else
        some { result := answer, success := success, memory := [entry1], calls := [prompt] }

/-! ## Run controller (`AutonomousOrchestrator.run_loop`)

The loop is embedded with the outcome of each `execute_step` call supplied by
a dispatch oracle `dispatch : Nat → TaskStep → Option (String × Bool)` (the
iteration index and the step being run, with its transient `"running"`
status); `none` is an exception escaping `execute_step` (worker-resolution
KeyError), which aborts the run uncaught. Quantifying over `dispatch` covers
every behaviour of the embedded `execute_step` above and of the external
workers. `_visual_verification` (filesystem and vision-model inspection after
the loop, affecting only the `final_answer` text) and the notifier calls are
omitted. -/

def deadlock_error : String := "Dependency deadlock: langkah yang dibutuhkan gagal"

/-- Lines 789-795: every still-pending step is marked failed with the
synthetic dependency-deadlock error. -/
def markDeadlock (steps : List TaskStep) : List TaskStep :=
  steps.map (fun s =>
    if s.status == "pending" then { s with status := "failed", error := deadlock_error }
    else s)

structure LoopState where
  steps : List TaskStep
  reflection_log : List String
  consecutive_failures : Nat
  final_answer : String
deriving DecidableEq, Repr

inductive IterResult where
  | stop (st : LoopState)
  | crash (st : LoopState)
  | cont (st : LoopState)
deriving DecidableEq, Repr

/-- One pass of the while-loop body (lines 786-839): check completion, pick
the next ready step (marking a dependency deadlock and breaking when none is
ready but pending steps remain), set it running, dispatch, reflect, update
the consecutive-failure counter, and revise the plan only when the step is
terminally failed and the counter is below 3. -/
def runIteration (dispatch : Nat → TaskStep → Option (String × Bool)) (iter : Nat)
    (st : LoopState) : IterResult :=
  if is_complete st.steps then .stop st
  else
    match findReadyIdx st.steps with
    | none =>
      let has_pending := st.steps.any (fun s => s.status == "pending")
      .stop { st with steps := if has_pending then markDeadlock st.steps else st.steps }
    | some i =>
      match st.steps[i]? with
      | none => .stop st
      | some step =>
        let stepRunning := { step with status := "running" }
        match dispatch iter stepRunning with
        | none => .crash { st with steps := st.steps.set i stepRunning }
        | some rs =>
          let r := reflect stepRunning rs.1 rs.2
          let steps1 := st.steps.set i r.1
          let cf := if rs.2 then 0 else st.consecutive_failures + 1
          let steps2 :=
            if !rs.2 && r.1.status == "failed" && cf < 3 then revise_plan steps1 r.1
            else steps1
          .cont { steps := steps2,
                  reflection_log := st.reflection_log ++ [r.2],
                  consecutive_failures := cf,
                  final_answer := if rs.2 then rs.1 else st.final_answer }

/-- The while-loop, by recursion on the remaining iteration budget
(`fuel = max_iterations - iteration`); returns the final state, the number of
dispatched iterations, and whether an exception escaped. -/
def runLoopGo (dispatch : Nat → TaskStep → Option (String × Bool)) :
    Nat → Nat → LoopState → LoopState × Nat × Bool
  | 0, iter, st => (st, iter, false)
  | fuel + 1, iter, st =>
    match runIteration dispatch iter st with
    | .stop st' => (st', iter, false)
    | .crash st' => (st', iter + 1, true)
    | .cont st' => runLoopGo dispatch fuel (iter + 1) st'

/-- The textual summary assembled at the end of `run_loop` (lines 880-891);
the elapsed-seconds figure, pure wall-clock output, is omitted from the
`**Hasil:**` line. -/
def build_run_summary (goal : String) (st : LoopState) : String :=
  let completed := (st.steps.filter (fun s => s.status == "completed")).length
  let total := st.steps.length
  let summary_lines :=
    [get_progress_text goal st.steps, "\n---\n",
     "**Hasil:** " ++ toString completed ++ "/" ++ toString total ++ " langkah selesai"]
  let summary_lines :=
    if st.reflection_log.isEmpty then summary_lines
    else summary_lines ++ ["\n**Log refleksi:**"] ++
      (st.reflection_log.drop (st.reflection_log.length - 5)).map (fun e => "  - " ++ e)
  let summary_lines :=
    if st.final_answer == "" then summary_lines
    else summary_lines ++ ["\n\n**Hasil akhir:**\n" ++ st.final_answer]
  String.intercalate "\n" summary_lines

/-- Result of a run: final plan steps, reflection log, number of dispatched
iterations, whether an exception escaped, and the returned summary (`none`
exactly when the run aborted on an escaped exception). -/
structure RunResult where
  steps : List TaskStep
  reflection_log : List String
  dispatches : Nat
  crashed : Bool
  summary : Option String
deriving DecidableEq, Repr

/-- `AutonomousOrchestrator.run_loop(goal, agent_tasks)`: build the plan, run
at most `len(plan.steps) * 4` iterations, and assemble the summary. -/
def run_loop (goal : String) (agent_tasks : List (String × AgentTaskInfo))
    (dispatch : Nat → TaskStep → Option (String × Bool)) : RunResult :=
  let steps0 := create_plan_steps agent_tasks
  let max_iterations := steps0.length * 4
  let out := runLoopGo dispatch max_iterations 0
    { steps := steps0, reflection_log := [], consecutive_failures := 0, final_answer := "" }
  { steps := out.1.steps,
    reflection_log := out.1.reflection_log,
    dispatches := out.2.1,
    crashed := out.2.2,
    summary := if out.2.2 then none else some (build_run_summary goal out.1) }

/-! ## Auxiliary definitions used by the verification below -/

/-- The state carried by any of the three loop-body outcomes. -/
def IterResult.state : IterResult → LoopState
  | .stop st => st
  | .crash st => st
  | .cont st => st

/-- The per-step invariant maintained by a run: the attempt counter never
exceeds the budget, and a pending step still has budget left. -/
def stepInv (s : TaskStep) : Prop :=
  s.attempts ≤ s.max_attempts ∧ (s.status = "pending" → s.attempts < s.max_attempts)

/-! ### Concrete inputs used by counterexamples and witnesses -/

/-- A one-step plan whose single step carries the unresolvable dependency
`"99"` (the spec's dependency-deadlock scenario). -/
def tasksC1 : List (String × AgentTaskInfo) :=
  [("a", { task := some "tugas A", agent := some "coder", need := .list ["99"] })]

def planC1 : ExecutionPlan := { goal := "g", steps := create_plan_steps tasksC1 }

/-- A dispatch oracle whose worker always succeeds. -/
def dispatchOk : Nat → TaskStep → Option (String × Bool) := fun _ _ => some ("selesai", true)

/-- A dispatch oracle whose worker always fails. -/
def dispatchFail : Nat → TaskStep → Option (String × Bool) := fun _ _ => some ("boom", false)

/-- Plan with a single pending step whose dependency `"7"` resolves to no step. -/
def planC4 : ExecutionPlan :=
  { goal := "g",
    steps := [{ id := 1, description := "a", agent_type := "coder", dependencies := ["7"] }] }

/-- A plan with one dependency-free pending step, for witnesses. -/
def planW : ExecutionPlan :=
  { goal := "g", steps := [{ id := 1, description := "w", agent_type := "coder" }] }

/-- Two steps, the second depending on the first. -/
def tasksC2 : List (String × AgentTaskInfo) :=
  [("a", { task := some "t1", agent := some "coder", need := .list [] }),
   ("b", { task := some "t2", agent := some "coder", need := .list ["1"] })]

/-- A terminally failed step whose error text is a missing-module message. -/
def failedStepC6 : TaskStep :=
  { id := 1, description := "buat scraper", agent_type := "coder", status := "failed",
    error := "ModuleNotFoundError: No module named 'requests'", attempts := 3,
    dependencies := ["0"] }

/-- A step routed to the code worker, for dispatcher examples. -/
def stepC7 : TaskStep := { id := 1, description := "tulis kode", agent_type := "coder" }

/-- A worker oracle that always raises. -/
def procRaising : String → AgentOutcome := fun _ => .exn "boom"

/-- A worker oracle that always returns a successful answer. -/
def procOkTrue : String → AgentOutcome := fun _ => .ok "fine" true

/-- A task whose agent tag matches nothing in a registry without `"coder"`. -/
def tasksC9 : List (String × AgentTaskInfo) :=
  [("a", { task := some "t", agent := some "xyz", need := .list [] })]

/-- The dispatch induced by the embedded dispatcher over a registry that lacks
the `"coder"` fallback key. -/
def dispatchC9 : Nat → TaskStep → Option (String × Bool) :=
  fun _ step =>
    (execute_step ["web"] procOkTrue procOkTrue "" "" [] step).map
      (fun out => (out.result, out.success))

/-- An LLM oracle whose regenerated answers never contain a code block. -/
def llmNoCode : Nat → String := fun i => "tidak ada kode " ++ toString i

/-- An execution oracle (irrelevant when no code block is ever produced). -/
def execNeutral : Nat → Bool × String := fun _ => (true, "")

/-- An LLM oracle producing a code block at once. -/
def llmCodeOk : Nat → String := fun i => "```python:app.py\nprint(" ++ toString i ++ ")\n```"

/-- An execution oracle reporting clean success. -/
def execClean : Nat → Bool × String := fun _ => (true, "semua beres")

/-- A single dependency-free pending step. -/
def stepW : TaskStep := { id := 1, description := "w", agent_type := "coder" }

/-- A loop state whose only pending step waits on a terminally failed one:
no step is ready, so the run declares a dependency deadlock. -/
def stDeadlockW : LoopState :=
  { steps := [{ id := 1, description := "x", agent_type := "coder", dependencies := ["2"] },
              { id := 2, description := "y", agent_type := "coder", status := "failed" }],
    reflection_log := [], consecutive_failures := 0, final_answer := "" }

/-- A loop state with one ready step, for single-iteration witnesses. -/
def stC5 : LoopState :=
  { steps := [stepW], reflection_log := [], consecutive_failures := 0, final_answer := "" }

/-! ## Helper lemmas on strings and substring containment -/

theorem str_toList_append (s t : String) : (s ++ t).toList = s.toList ++ t.toList := by
  cases s; cases t; rfl

theorem listPre_append_self (n t : List Char) : listPre n (n ++ t) = true := by
  induction n with
  | nil => rfl
  | cons a as ih => simp [listPre, ih]

theorem listSub_of_listPre {n h : List Char} (hp : listPre n h = true) :
    listSub n h = true := by
  cases h with
  | nil =>
    cases n with
    | nil => rfl
    | cons a as => simp [listPre] at hp
  | cons b bs => simp [listSub, hp]

theorem listSub_append_left (a : List Char) {n h : List Char}
    (hs : listSub n h = true) : listSub n (a ++ h) = true := by
  induction a with
  | nil => simpa using hs
  | cons x xs ih => simp [listSub, ih]

theorem listSub_self_append (n t : List Char) : listSub n (n ++ t) = true :=
  listSub_of_listPre (listPre_append_self n t)

theorem listPre_extend {n h : List Char} (c : List Char) (hp : listPre n h = true) :
    listPre n (h ++ c) = true := by
  induction n generalizing h with
  | nil => rfl
  | cons a as ih =>
    cases h with
    | nil => simp [listPre] at hp
    | cons b bs =>
      simp only [listPre, Bool.and_eq_true] at hp
      simp [listPre, hp.1, ih hp.2]

theorem listSub_extend {n h : List Char} (c : List Char) (hs : listSub n h = true) :
    listSub n (h ++ c) = true := by
  induction h with
  | nil =>
    simp only [listSub] at hs
    have : n = [] := by
      cases n with
      | nil => rfl
      | cons a as => simp [List.isEmpty] at hs
    subst this
    cases c with
    | nil => rfl
    | cons x xs => simp [listSub, listPre]
  | cons b bs ih =>
    simp only [listSub, Bool.or_eq_true] at hs
    rcases hs with hp | hsub
    · exact listSub_of_listPre (listPre_extend c hp)
    · simp [listSub, ih hsub]

theorem strContains_append_right (a : String) {c b : String}
    (h : strContains c b = true) : strContains (a ++ c) b = true := by
  unfold strContains at h ⊢
  rw [str_toList_append]
  exact listSub_append_left a.toList h

theorem strContains_append_left {a b : String} (c : String)
    (h : strContains a b = true) : strContains (a ++ c) b = true := by
  unfold strContains at h ⊢
  rw [str_toList_append]
  exact listSub_extend c.toList h

theorem strContains_suffix_self (x n : String) : strContains (x ++ n) n = true := by
  unfold strContains
  rw [str_toList_append]
  apply listSub_append_left
  have := listSub_self_append n.toList []
  simpa using this

/-! ## Claim C10 -/

/-- Claim C10: `_has_error_in_output` is case-sensitive substring matching over
a fixed list of 20 indicator tokens; it returns true iff the feedback contains
at least one of them; empty feedback is never failing, and a lowercase-only
mention such as "error" is not failing. Confirmed as stated. -/
theorem c10_error_indicator_detection :
    (∀ feedback, has_error_in_output feedback = true ↔
      ∃ ind, ind ∈ error_indicators ∧ strContains feedback ind = true) ∧
    error_indicators.length = 20 ∧
    has_error_in_output "" = false ∧
    has_error_in_output "an error occurred" = false := by
  refine ⟨?_, by decide, by decide, by decide⟩
  intro feedback
  constructor
  · intro h
    unfold has_error_in_output at h
    by_cases hfb : feedback == ""
    · rw [if_pos hfb] at h
      exact absurd h (by simp)
    · rw [if_neg hfb] at h
      rcases List.any_eq_true.mp h with ⟨ind, hmem, hc⟩
      exact ⟨ind, hmem, hc⟩
  · rintro ⟨ind, hmem, hc⟩
    unfold has_error_in_output
    by_cases hfb : feedback == ""
    · exfalso
      have hempty : ∀ i ∈ error_indicators, strContains "" i = false := by decide
      have hfb' : feedback = "" := by simpa using hfb
      rw [hfb'] at hc
      rw [hempty ind hmem] at hc
      exact Bool.false_ne_true hc
    · rw [if_neg hfb]
      exact List.any_eq_true.mpr ⟨ind, hmem, hc⟩

/-- Witness for C10 at a concrete input. -/
theorem c10_witness : has_error_in_output "Traceback (most recent call last)" = true :=
  (c10_error_indicator_detection.1 "Traceback (most recent call last)").mpr
    ⟨"Traceback", by decide, by decide⟩

/-! ## Claim C8 -/

/-- Claim C8 counterexample: with registry `["web"]` and tag `"xyz"` neither an
exact nor a three-character-prefix match exists, resolution falls back to
`"coder"`, and the registry lookup of that fallback raises (modelled `none`):
the dispatcher does not always produce a worker. -/
theorem c8_counterexample :
    resolve_agent_key ["web"] "xyz" = "coder" ∧ resolve_agent ["web"] "xyz" = none := by
  decide

/-- Claim C8 (amended): resolution uses the exact lowered tag if registered,
else the first registered key matching the tag's first three characters, else
the fixed fallback `"coder"`; it always produces a worker provided the
registry contains `"coder"` — with `"coder"` absent and no match, the lookup
of the fallback key raises. -/
theorem c8_resolution :
    (∀ agents t, agents.contains (strLower t) = true →
        resolve_agent agents t = some (strLower t)) ∧
    (∀ agents t k, agents.contains (strLower t) = false →
        agents.find? (fun key => strIsPre (strTake (strLower t) 3) key) = some k →
        resolve_agent agents t = some k) ∧
    (∀ agents t, agents.contains "coder" = true →
        (resolve_agent agents t).isSome = true) := by
  refine ⟨?_, ?_, ?_⟩
  · intro agents t h
    unfold resolve_agent resolve_agent_key
    rw [if_pos h, if_pos h]
  · intro agents t k hnot hfind
    have hk : agents.contains k = true := by
      have : k ∈ agents := List.mem_of_find?_eq_some hfind
      simpa using this
    have hnot' : ¬ agents.contains (strLower t) = true := by
      rw [hnot]; exact Bool.false_ne_true
    unfold resolve_agent resolve_agent_key
    rw [if_neg hnot', hfind]
    show (if agents.contains k = true then some k else none) = some k
    rw [if_pos hk]
  · intro agents t h
    unfold resolve_agent resolve_agent_key
    by_cases hex : agents.contains (strLower t) = true
    · rw [if_pos hex]
      show (if agents.contains (strLower t) = true then some (strLower t) else none).isSome = true
      rw [if_pos hex]; rfl
    · rw [if_neg hex]
      cases hfind : agents.find? (fun key => strIsPre (strTake (strLower t) 3) key) with
      | some k =>
        have hk : agents.contains k = true := by
          have : k ∈ agents := List.mem_of_find?_eq_some hfind
          simpa using this
        show (if agents.contains k = true then some k else none).isSome = true
        rw [if_pos hk]; rfl
      | none =>
        show (if agents.contains "coder" = true then some "coder" else none).isSome = true
        rw [if_pos h]; rfl

/-- Witness for C8 (amended) at a concrete registry and tag. -/
theorem c8_witness : (resolve_agent ["coder", "web"] "browser").isSome = true :=
  c8_resolution.2.2 ["coder", "web"] "browser" (by decide)

/-! ## Scheduler lemmas -/

theorem findReady_eq_some {all : List TaskStep} :
    ∀ {l : List TaskStep} {s : TaskStep}, findReady all l = some s →
      ∃ l1 l2, l = l1 ++ s :: l2 ∧ (∀ t ∈ l1, stepReady all t = false) ∧
        stepReady all s = true := by
  intro l
  induction l with
  | nil => intro s h; exact absurd h (by simp [findReady])
  | cons a rest ih =>
    intro s h
    unfold findReady at h
    by_cases hr : stepReady all a = true
    · rw [if_pos hr] at h
      obtain rfl : a = s := by injection h
      exact ⟨[], rest, rfl, by simp, hr⟩
    · rw [if_neg hr] at h
      obtain ⟨l1, l2, heq, hall, hs⟩ := ih h
      refine ⟨a :: l1, l2, by simp [heq], ?_, hs⟩
      intro t ht
      rcases List.mem_cons.mp ht with rfl | ht'
      · revert hr; cases stepReady all t <;> simp
      · exact hall t ht'

theorem findReady_eq_none {all : List TaskStep} :
    ∀ {l : List TaskStep}, findReady all l = none →
      ∀ t ∈ l, stepReady all t = false := by
  intro l
  induction l with
  | nil => intro _ t ht; exact absurd ht (List.not_mem_nil t)
  | cons a rest ih =>
    intro h t ht
    unfold findReady at h
    by_cases hr : stepReady all a = true
    · rw [if_pos hr] at h; exact absurd h (by simp)
    · rw [if_neg hr] at h
      rcases List.mem_cons.mp ht with rfl | ht'
      · revert hr; cases stepReady all t <;> simp
      · exact ih h t ht'

theorem stepReady_spec {steps : List TaskStep} {step : TaskStep}
    (h : stepReady steps step = true) :
    step.status = "pending" ∧ ∀ dep ∈ step.dependencies, depMet steps dep = true := by
  unfold stepReady at h
  rw [Bool.and_eq_true] at h
  exact ⟨by simpa using h.1, List.all_eq_true.mp h.2⟩

theorem depMet_some {steps : List TaskStep} {dep : String} {t : TaskStep}
    (hmet : depMet steps dep = true) (hfind : stepById steps dep = some t) :
    t.status = "completed" := by
  unfold depMet at hmet
  rw [hfind] at hmet
  simpa using hmet

theorem depMet_of_unresolvable {steps : List TaskStep} {dep : String}
    (h : ∀ t ∈ steps, (toString t.id == dep) = false) : depMet steps dep = true := by
  have hnone : stepById steps dep = none :=
    List.find?_eq_none.mpr (fun x hx => by rw [h x hx]; exact Bool.false_ne_true)
  unfold depMet
  rw [hnone]

theorem exists_unmet_of_not_ready {steps : List TaskStep} {s : TaskStep}
    (hpend : s.status = "pending") (hnr : stepReady steps s = false) :
    ∃ dep ∈ s.dependencies, ∃ t, stepById steps dep = some t ∧ t.status ≠ "completed" := by
  unfold stepReady at hnr
  have h1 : (s.status == "pending") = true := by simp [hpend]
  rw [h1, Bool.true_and] at hnr
  have : ¬ (s.dependencies.all (depMet steps) = true) := by rw [hnr]; exact Bool.false_ne_true
  rw [List.all_eq_true] at this
  push_neg at this
  obtain ⟨dep, hdep, hmet⟩ := this
  have hmet' : depMet steps dep = false := by
    revert hmet; cases depMet steps dep <;> simp
  refine ⟨dep, hdep, ?_⟩
  unfold depMet at hmet'
  cases hf : stepById steps dep with
  | none => rw [hf] at hmet'; exact absurd hmet' (by simp)
  | some t =>
    rw [hf] at hmet'
    have ht : (t.status == "completed") = false := hmet'
    refine ⟨t, rfl, ?_⟩
    intro hc
    rw [hc] at ht
    simp at ht

/-! ## Claim C4 -/

/-- Claim C4 counterexample: the plan whose single pending step depends on
`"7"`, an identifier resolving to no step at all, is nevertheless returned by
`get_next_step` — contradicting both "whose every dependency identifier
resolves to a step with status completed" and "returns none when no such step
exists". -/
theorem c4_counterexample :
    get_next_step planC4 =
      some { id := 1, description := "a", agent_type := "coder", dependencies := ["7"] } ∧
    stepById planC4.steps "7" = none := by decide

/-- Claim C4 (amended): `next_ready` returns the first step in plan order that
is pending and each of whose dependency identifiers either resolves to no
step (treated as satisfied) or resolves to a completed step; for dependencies
that do resolve it never schedules the dependant early; when it returns none,
every pending step has a dependency resolving to a non-completed step. The
embedding is a pure function, so the call mutates nothing. -/
theorem c4_next_ready_characterization :
    (∀ p s, get_next_step p = some s →
        s.status = "pending" ∧
        (∀ dep ∈ s.dependencies, ∀ t, stepById p.steps dep = some t →
          t.status = "completed") ∧
        ∃ l1 l2, p.steps = l1 ++ s :: l2 ∧ ∀ t ∈ l1, stepReady p.steps t = false) ∧
    (∀ p, get_next_step p = none →
        ∀ s ∈ p.steps, s.status = "pending" →
          ∃ dep ∈ s.dependencies, ∃ t, stepById p.steps dep = some t ∧
            t.status ≠ "completed") := by
  constructor
  · intro p s h
    have h' : findReady p.steps p.steps = some s := h
    obtain ⟨l1, l2, heq, hfirst, hready⟩ := findReady_eq_some h'
    obtain ⟨hpend, hdeps⟩ := stepReady_spec hready
    exact ⟨hpend, fun dep hdep t ht => depMet_some (hdeps dep hdep) ht, l1, l2, heq, hfirst⟩
  · intro p h s hmem hpend
    have h' : findReady p.steps p.steps = none := h
    exact exists_unmet_of_not_ready hpend (findReady_eq_none h' s hmem)

/-- Witness for C4 (amended) at a concrete plan. -/
theorem c4_witness :
    ({ id := 1, description := "w", agent_type := "coder" } : TaskStep).status = "pending" :=
  (c4_next_ready_characterization.1 planW
    { id := 1, description := "w", agent_type := "coder" } (by decide)).1

/-! ## Claim C1 -/

/-- Claim C1 counterexample: the spec scenario — a plan with the single step
A carrying the unresolvable dependency `"99"` — does not block A forever:
`next_ready` returns A, and a run with an always-succeeding worker completes
A normally (no step ever carries the dependency-deadlock error). -/
theorem c1_counterexample :
    get_next_step planC1 =
      some { id := 1, description := "tugas A", agent_type := "coder",
             dependencies := ["99"] } ∧
    (run_loop "g" tasksC1 dispatchOk).steps =
      [{ id := 1, description := "tugas A", agent_type := "coder", status := "completed",
         result := "selesai", dependencies := ["99"] }] ∧
    (run_loop "g" tasksC1 dispatchOk).crashed = false := by decide

/-- Claim C1 (amended): a dependency identifier that resolves to no step is
treated as satisfied, so a pending step carrying only such dependencies is
returned by `next_ready` and dispatched normally; the dependency-deadlock
handling applies instead when no step is ready while pending steps remain
(their dependencies resolving to failed or otherwise non-completed steps):
the loop then terminates at once, marking every remaining pending step failed
with the dependency-deadlock error. -/
theorem c1_deadlock_behaviour :
    (∀ steps dep, (∀ t ∈ steps, (toString t.id == dep) = false) →
        depMet steps dep = true) ∧
    (∀ dispatch fuel iter st, is_complete st.steps = false →
        findReadyIdx st.steps = none →
        runLoopGo dispatch (fuel + 1) iter st =
          ({ st with steps := if st.steps.any (fun s => s.status == "pending")
              then markDeadlock st.steps else st.steps }, iter, false)) ∧
    (∀ steps s, s ∈ steps → s.status = "pending" →
        { s with status := "failed", error := deadlock_error } ∈ markDeadlock steps) := by
  refine ⟨?_, ?_, ?_⟩
  · intro steps dep h
    exact depMet_of_unresolvable h
  · intro dispatch fuel iter st hcomp hidx
    have hc' : ¬ is_complete st.steps = true := by rw [hcomp]; exact Bool.false_ne_true
    have hIter : runIteration dispatch iter st =
        .stop { st with steps := if st.steps.any (fun s => s.status == "pending")
            then markDeadlock st.steps else st.steps } := by
      unfold runIteration
      rw [if_neg hc', hidx]
    simp only [runLoopGo, hIter]
  · intro steps s hmem hpend
    unfold markDeadlock
    refine List.mem_map.mpr ⟨s, hmem, ?_⟩
    show (if (s.status == "pending") = true
        then { s with status := "failed", error := deadlock_error } else s) =
      { s with status := "failed", error := deadlock_error }
    rw [if_pos (show (s.status == "pending") = true by simp [hpend])]

/-- Witness for C1 (amended): the deadlock branch at a concrete blocked state. -/
theorem c1_witness :
    runLoopGo dispatchOk 1 0 stDeadlockW =
      ({ stDeadlockW with steps := if stDeadlockW.steps.any (fun s => s.status == "pending")
          then markDeadlock stDeadlockW.steps else stDeadlockW.steps }, 0, false) :=
  c1_deadlock_behaviour.2.1 dispatchOk 0 0 stDeadlockW (by decide) (by decide)

/-! ## Reflection equations and run-loop invariants -/

theorem reflect_success (step : TaskStep) (result : String) :
    (reflect step result true).1 = { step with status := "completed", result := result } := rfl

theorem reflect_fail_retry {step : TaskStep} (result : String)
    (h : step.attempts + 1 < step.max_attempts) :
    (reflect step result false).1 =
      { step with attempts := step.attempts + 1, status := "pending", error := result } := by
  have hm : ¬ step.max_attempts ≤ step.attempts + 1 := by omega
  unfold reflect
  simp only [Bool.false_eq_true, if_false, if_neg hm]

theorem reflect_fail_terminal {step : TaskStep} (result : String)
    (h : step.max_attempts ≤ step.attempts + 1) :
    (reflect step result false).1 =
      { step with attempts := step.attempts + 1, status := "failed", error := result } := by
  unfold reflect
  simp only [Bool.false_eq_true, if_false, if_pos h]

theorem stepInv_reflect {step : TaskStep} (h : step.attempts < step.max_attempts)
    (result : String) (success : Bool) : stepInv (reflect step result success).1 := by
  cases success with
  | true =>
    rw [reflect_success]
    exact ⟨Nat.le_of_lt h,
           fun hc => absurd (show ("completed" : String) = "pending" from hc) (by decide)⟩
  | false =>
    by_cases hm : step.max_attempts ≤ step.attempts + 1
    · rw [reflect_fail_terminal result hm]
      exact ⟨show step.attempts + 1 ≤ step.max_attempts by omega,
             fun hc => absurd (show ("failed" : String) = "pending" from hc) (by decide)⟩
    · rw [reflect_fail_retry result (by omega)]
      exact ⟨show step.attempts + 1 ≤ step.max_attempts by omega,
             fun _ => show step.attempts + 1 < step.max_attempts by omega⟩

theorem stepInv_markDeadlock {steps : List TaskStep} (h : ∀ s ∈ steps, stepInv s) :
    ∀ s ∈ markDeadlock steps, stepInv s := by
  intro s hs
  unfold markDeadlock at hs
  obtain ⟨t, ht, rfl⟩ := List.mem_map.mp hs
  show stepInv (if (t.status == "pending") = true
      then { t with status := "failed", error := deadlock_error } else t)
  by_cases hp : (t.status == "pending") = true
  · rw [if_pos hp]
    exact ⟨(h t ht).1,
           fun hc => absurd (show ("failed" : String) = "pending" from hc) (by decide)⟩
  · rw [if_neg hp]
    exact h t ht

theorem stepInv_set {steps : List TaskStep} {i : Nat} {x : TaskStep}
    (h : ∀ s ∈ steps, stepInv s) (hx : stepInv x) :
    ∀ s ∈ steps.set i x, stepInv s := by
  intro s hs
  rcases List.mem_or_eq_of_mem_set hs with hmem | rfl
  · exact h s hmem
  · exact hx

theorem revise_plan_shape (steps : List TaskStep) (fs : TaskStep) :
    ∃ tl, revise_plan steps fs = steps ++ tl ∧
      ∀ s ∈ tl, s.attempts = 0 ∧ s.max_attempts = 2 ∧ s.status = "pending" := by
  unfold revise_plan
  by_cases hcond : (strContains (strLower fs.error) "no module named" ||
      strContains (strLower fs.error) "import") = true
  · simp only [if_pos hcond]
    refine ⟨_, by rw [List.append_assoc], ?_⟩
    intro s hs
    rcases List.mem_cons.mp hs with rfl | hs'
    · exact ⟨rfl, rfl, rfl⟩
    · rcases List.mem_cons.mp hs' with rfl | hs''
      · exact ⟨rfl, rfl, rfl⟩
      · exact absurd hs'' (List.not_mem_nil _)
  · simp only [if_neg hcond]
    refine ⟨_, rfl, ?_⟩
    intro s hs
    rcases List.mem_cons.mp hs with rfl | hs'
    · exact ⟨rfl, rfl, rfl⟩
    · exact absurd hs' (List.not_mem_nil _)

theorem stepInv_revise {steps : List TaskStep} (fs : TaskStep)
    (h : ∀ s ∈ steps, stepInv s) : ∀ s ∈ revise_plan steps fs, stepInv s := by
  obtain ⟨tl, heq, htl⟩ := revise_plan_shape steps fs
  rw [heq]
  intro s hs
  rcases List.mem_append.mp hs with hmem | hmem
  · exact h s hmem
  · obtain ⟨ha, hm, _⟩ := htl s hmem
    exact ⟨by omega, fun _ => by omega⟩

theorem findReadyIdxAux_spec {all : List TaskStep} :
    ∀ {l : List TaskStep} {k i : Nat}, findReadyIdxAux all k l = some i →
      ∃ j step, i = k + j ∧ l[j]? = some step ∧ stepReady all step = true := by
  intro l
  induction l with
  | nil => intro k i h; exact absurd h (by simp [findReadyIdxAux])
  | cons a rest ih =>
    intro k i h
    unfold findReadyIdxAux at h
    by_cases hr : stepReady all a = true
    · rw [if_pos hr] at h
      obtain rfl : k = i := by injection h
      exact ⟨0, a, by omega, by simp, hr⟩
    · rw [if_neg hr] at h
      obtain ⟨j, step, hij, hget, hs⟩ := ih h
      exact ⟨j + 1, step, by omega, by simpa using hget, hs⟩

theorem findReadyIdx_spec {steps : List TaskStep} {i : Nat}
    (h : findReadyIdx steps = some i) :
    ∃ step, steps[i]? = some step ∧ stepReady steps step = true := by
  obtain ⟨j, step, hij, hget, hs⟩ := findReadyIdxAux_spec h
  refine ⟨step, ?_, hs⟩
  have : i = j := by omega
  rw [this]
  exact hget

/-- Characterization of the loop body when a ready step exists and the
dispatch returns normally. -/
theorem runIteration_dispatch_eq (dispatch : Nat → TaskStep → Option (String × Bool))
    (iter : Nat) (st : LoopState) (i : Nat) (step : TaskStep) (rs : String × Bool)
    (hcomp : is_complete st.steps = false)
    (hidx : findReadyIdx st.steps = some i)
    (hget : st.steps[i]? = some step)
    (hdisp : dispatch iter { step with status := "running" } = some rs) :
    runIteration dispatch iter st = .cont
      { steps :=
          if !rs.2 && ((reflect { step with status := "running" } rs.1 rs.2).1.status == "failed")
              && ((if rs.2 then 0 else st.consecutive_failures + 1) < 3)
          then revise_plan
                 (st.steps.set i (reflect { step with status := "running" } rs.1 rs.2).1)
                 (reflect { step with status := "running" } rs.1 rs.2).1
          else st.steps.set i (reflect { step with status := "running" } rs.1 rs.2).1,
        reflection_log :=
          st.reflection_log ++ [(reflect { step with status := "running" } rs.1 rs.2).2],
        consecutive_failures := if rs.2 then 0 else st.consecutive_failures + 1,
        final_answer := if rs.2 then rs.1 else st.final_answer } := by
  unfold runIteration
  simp only [hcomp, Bool.false_eq_true, if_false, hidx, hget, hdisp]

theorem runIteration_inv (dispatch : Nat → TaskStep → Option (String × Bool)) (iter : Nat)
    (st : LoopState) (h : ∀ s ∈ st.steps, stepInv s) :
    ∀ s ∈ (runIteration dispatch iter st).state.steps, stepInv s := by
  by_cases hcomp : is_complete st.steps = true
  · unfold runIteration
    rw [if_pos hcomp]
    exact h
  · have hcomp' : is_complete st.steps = false := by
      revert hcomp; cases is_complete st.steps <;> simp
    cases hidx : findReadyIdx st.steps with
    | none =>
      unfold runIteration
      rw [if_neg hcomp, hidx]
      intro s hs
      have hs' : s ∈ (if st.steps.any (fun s => s.status == "pending") = true
          then markDeadlock st.steps else st.steps) := hs
      by_cases hp : st.steps.any (fun s => s.status == "pending") = true
      · rw [if_pos hp] at hs'
        exact stepInv_markDeadlock h s hs'
      · rw [if_neg hp] at hs'
        exact h s hs'
    | some i =>
      cases hget : st.steps[i]? with
      | none =>
        unfold runIteration
        rw [if_neg hcomp]
        simp only [hidx, hget]
        exact h
      | some step =>
        obtain ⟨step', hget', hready⟩ := findReadyIdx_spec hidx
        rw [hget] at hget'
        obtain rfl : step = step' := by injection hget'
        have hpend : step.status = "pending" := (stepReady_spec hready).1
        have hmem : step ∈ st.steps := List.getElem?_mem hget
        have hlt : step.attempts < step.max_attempts := (h step hmem).2 hpend
        have hrun : stepInv ({ step with status := "running" }) :=
          ⟨Nat.le_of_lt hlt,
           fun hc => absurd (show ("running" : String) = "pending" from hc) (by decide)⟩
        cases hdisp : dispatch iter { step with status := "running" } with
        | none =>
          unfold runIteration
          rw [if_neg hcomp]
          simp only [hidx, hget, hdisp]
          exact stepInv_set h hrun
        | some rs =>
          rw [runIteration_dispatch_eq dispatch iter st i step rs hcomp' hidx hget hdisp]
          intro s hs
          have hinv1 : ∀ t ∈ st.steps.set i
              (reflect { step with status := "running" } rs.1 rs.2).1, stepInv t :=
            stepInv_set h (stepInv_reflect hlt rs.1 rs.2)
          have hs' : s ∈ (if !rs.2 &&
              ((reflect { step with status := "running" } rs.1 rs.2).1.status == "failed")
              && ((if rs.2 then 0 else st.consecutive_failures + 1) < 3)
            then revise_plan
                   (st.steps.set i (reflect { step with status := "running" } rs.1 rs.2).1)
                   (reflect { step with status := "running" } rs.1 rs.2).1
            else st.steps.set i (reflect { step with status := "running" } rs.1 rs.2).1) := hs
          by_cases hcond : (!rs.2 &&
              ((reflect { step with status := "running" } rs.1 rs.2).1.status == "failed")
              && ((if rs.2 then 0 else st.consecutive_failures + 1) < 3)) = true
          · rw [if_pos hcond] at hs'
            exact stepInv_revise _ hinv1 s hs'
          · rw [if_neg hcond] at hs'
            exact hinv1 s hs'

theorem runLoopGo_inv (dispatch : Nat → TaskStep → Option (String × Bool)) :
    ∀ fuel iter st, (∀ s ∈ st.steps, stepInv s) →
      ∀ s ∈ (runLoopGo dispatch fuel iter st).1.steps, stepInv s := by
  intro fuel
  induction fuel with
  | zero => intro iter st h; exact h
  | succ fuel ih =>
    intro iter st h
    have hIter := runIteration_inv dispatch iter st h
    simp only [runLoopGo]
    cases hr : runIteration dispatch iter st with
    | stop st' => rw [hr] at hIter; exact hIter
    | crash st' => rw [hr] at hIter; exact hIter
    | cont st' =>
      rw [hr] at hIter
      exact ih (iter + 1) st' hIter

theorem stepInv_create (agent_tasks : List (String × AgentTaskInfo)) :
    ∀ s ∈ create_plan_steps agent_tasks, stepInv s := by
  intro s hs
  unfold create_plan_steps at hs
  obtain ⟨p, _, rfl⟩ := List.mem_map.mp hs
  exact ⟨show (0 : Nat) ≤ 3 by omega, fun _ => show (0 : Nat) < 3 by omega⟩

/-! ## Claim C2 -/

/-- Claim C2 counterexample: two steps with the second depending on the first
and a worker that always fails. The first step fails terminally after its 3
dispatches; the deadlock branch then marks the second step failed although it
was never dispatched — `attempts = 0 ≠ max_attempts`, so "status becomes
failed only after exactly max_attempts failed dispatches" is false. -/
theorem c2_counterexample :
    (run_loop "g" tasksC2 dispatchFail).steps[1]? =
      some { id := 2, description := "t2", agent_type := "coder", status := "failed",
             result := "", error := deadlock_error, attempts := 0, max_attempts := 3,
             dependencies := ["1"] } ∧
    (run_loop "g" tasksC2 dispatchFail).dispatches = 3 := by decide

/-- Claim C2 (amended): `attempts ≤ max_attempts` holds for every step of every
run; via `reflect`, a failed dispatch increments `attempts` by exactly one,
re-pending the step below the budget and terminally failing it (error text
preserved) exactly when the budget is reached, while success completes the
step without touching the counter. The dependency-deadlock branch may
additionally mark a never-dispatched pending step failed with `attempts <
max_attempts`. -/
theorem c2_attempt_budget :
    (∀ goal agent_tasks dispatch, ∀ s ∈ (run_loop goal agent_tasks dispatch).steps,
        s.attempts ≤ s.max_attempts) ∧
    (∀ step result, (reflect step result true).1 =
        { step with status := "completed", result := result }) ∧
    (∀ (step : TaskStep) result, step.attempts + 1 < step.max_attempts →
        (reflect step result false).1 =
          { step with attempts := step.attempts + 1, status := "pending", error := result }) ∧
    (∀ (step : TaskStep) result, step.max_attempts ≤ step.attempts + 1 →
        (reflect step result false).1 =
          { step with attempts := step.attempts + 1, status := "failed", error := result }) := by
  refine ⟨?_, reflect_success, fun step result h => reflect_fail_retry result h,
    fun step result h => reflect_fail_terminal result h⟩
  intro goal agent_tasks dispatch s hs
  exact (runLoopGo_inv dispatch ((create_plan_steps agent_tasks).length * 4) 0
    { steps := create_plan_steps agent_tasks, reflection_log := [],
      consecutive_failures := 0, final_answer := "" }
    (stepInv_create agent_tasks) s hs).1

/-- Witness for C2 (amended) at a concrete step of a concrete run. -/
theorem c2_witness :
    ({ id := 1, description := "t1", agent_type := "coder", status := "failed",
       error := "boom", attempts := 3, dependencies := [] } : TaskStep).attempts ≤
      ({ id := 1, description := "t1", agent_type := "coder", status := "failed",
         error := "boom", attempts := 3, dependencies := [] } : TaskStep).max_attempts :=
  c2_attempt_budget.1 "g" tasksC2 dispatchFail _ (by decide)

/-! ## Claim C5 -/

/-- Claim C5: the consecutive-failure counter resets to zero on any successful
dispatch and increments on any failed one; after the counter update, the plan
is revised only when the step is terminally failed and the counter is below 3
— in every other case (in particular from the 3rd consecutive failure on) the
iteration only updates the dispatched step and appends no new steps.
Confirmed as stated. -/
theorem c5_circuit_breaker :
    ∀ dispatch iter st i step res (ok : Bool),
    is_complete st.steps = false →
    findReadyIdx st.steps = some i →
    st.steps[i]? = some step →
    dispatch iter { step with status := "running" } = some (res, ok) →
    ((ok = true → runIteration dispatch iter st = .cont
        { steps := st.steps.set i (reflect { step with status := "running" } res ok).1,
          reflection_log :=
            st.reflection_log ++ [(reflect { step with status := "running" } res ok).2],
          consecutive_failures := 0,
          final_answer := res }) ∧
     (ok = false → (reflect { step with status := "running" } res ok).1.status ≠ "failed" →
        runIteration dispatch iter st = .cont
          { steps := st.steps.set i (reflect { step with status := "running" } res ok).1,
            reflection_log :=
              st.reflection_log ++ [(reflect { step with status := "running" } res ok).2],
            consecutive_failures := st.consecutive_failures + 1,
            final_answer := st.final_answer }) ∧
     (ok = false → 3 ≤ st.consecutive_failures + 1 →
        runIteration dispatch iter st = .cont
          { steps := st.steps.set i (reflect { step with status := "running" } res ok).1,
            reflection_log :=
              st.reflection_log ++ [(reflect { step with status := "running" } res ok).2],
            consecutive_failures := st.consecutive_failures + 1,
            final_answer := st.final_answer }) ∧
     (ok = false → (reflect { step with status := "running" } res ok).1.status = "failed" →
        st.consecutive_failures + 1 < 3 →
        runIteration dispatch iter st = .cont
          { steps := revise_plan
              (st.steps.set i (reflect { step with status := "running" } res ok).1)
              (reflect { step with status := "running" } res ok).1,
            reflection_log :=
              st.reflection_log ++ [(reflect { step with status := "running" } res ok).2],
            consecutive_failures := st.consecutive_failures + 1,
            final_answer := st.final_answer })) := by
  intro dispatch iter st i step res ok hcomp hidx hget hdisp
  have heq := runIteration_dispatch_eq dispatch iter st i step (res, ok) hcomp hidx hget hdisp
  refine ⟨?_, ?_, ?_, ?_⟩
  · intro hok
    subst hok
    rw [heq]
    simp
  · intro hok hne
    subst hok
    rw [heq]
    simp [hne]
  · intro hok h3
    subst hok
    rw [heq]
    have hlt : ¬ (st.consecutive_failures + 1 < 3) := by omega
    simp [hlt]
  · intro hok hfailed h3
    subst hok
    rw [heq]
    simp [hfailed, h3]

/-- Witness for C5 at a concrete ready state and a succeeding dispatch. -/
theorem c5_witness :
    runIteration dispatchOk 0 stC5 = .cont
      { steps := stC5.steps.set 0 (reflect { stepW with status := "running" } "selesai" true).1,
        reflection_log :=
          stC5.reflection_log ++ [(reflect { stepW with status := "running" } "selesai" true).2],
        consecutive_failures := 0,
        final_answer := "selesai" } :=
  (c5_circuit_breaker dispatchOk 0 stC5 0 stepW "selesai" true (by decide) (by decide)
    (by decide) rfl).1 rfl

/-! ## Claim C9 -/

theorem runLoopGo_dispatches_le (dispatch : Nat → TaskStep → Option (String × Bool)) :
    ∀ fuel iter st, (runLoopGo dispatch fuel iter st).2.1 ≤ iter + fuel := by
  intro fuel
  induction fuel with
  | zero => intro iter st; exact Nat.le_add_right iter 0
  | succ fuel ih =>
    intro iter st
    simp only [runLoopGo]
    cases hr : runIteration dispatch iter st with
    | stop st' => exact Nat.le_add_right iter (fuel + 1)
    | crash st' => show iter + 1 ≤ iter + (fuel + 1); omega
    | cont st' => exact le_trans (ih (iter + 1) st') (by omega)

theorem runIteration_no_crash (dispatch : Nat → TaskStep → Option (String × Bool))
    (hd : ∀ i s, (dispatch i s).isSome = true) (iter : Nat) (st : LoopState) :
    ∀ st', runIteration dispatch iter st ≠ .crash st' := by
  intro st' hcontra
  unfold runIteration at hcontra
  by_cases hcomp : is_complete st.steps = true
  · rw [if_pos hcomp] at hcontra
    exact IterResult.noConfusion hcontra
  · rw [if_neg hcomp] at hcontra
    cases hidx : findReadyIdx st.steps with
    | none =>
      simp only [hidx] at hcontra
      exact IterResult.noConfusion hcontra
    | some i =>
      simp only [hidx] at hcontra
      cases hget : st.steps[i]? with
      | none =>
        simp only [hget] at hcontra
        exact IterResult.noConfusion hcontra
      | some step =>
        simp only [hget] at hcontra
        cases hdisp : dispatch iter { step with status := "running" } with
        | none =>
          have := hd iter { step with status := "running" }
          rw [hdisp] at this
          exact absurd this (by simp)
        | some rs =>
          simp only [hdisp] at hcontra
          exact IterResult.noConfusion hcontra

theorem runLoopGo_no_crash (dispatch : Nat → TaskStep → Option (String × Bool))
    (hd : ∀ i s, (dispatch i s).isSome = true) :
    ∀ fuel iter st, (runLoopGo dispatch fuel iter st).2.2 = false := by
  intro fuel
  induction fuel with
  | zero => intro iter st; rfl
  | succ fuel ih =>
    intro iter st
    simp only [runLoopGo]
    cases hr : runIteration dispatch iter st with
    | stop st' => rfl
    | crash st' => exact absurd hr (runIteration_no_crash dispatch hd iter st st')
    | cont st' => exact ih (iter + 1) st'

theorem run_loop_summary_isSome :
    ∀ goal agent_tasks dispatch,
      (run_loop goal agent_tasks dispatch).summary.isSome =
        !(run_loop goal agent_tasks dispatch).crashed := by
  intro goal agent_tasks dispatch
  simp only [run_loop]
  cases hc : (runLoopGo dispatch ((create_plan_steps agent_tasks).length * 4) 0
      { steps := create_plan_steps agent_tasks, reflection_log := [],
        consecutive_failures := 0, final_answer := "" }).2.2 with
  | false => simp [hc]
  | true => simp [hc]

/-- Claim C9 counterexample: with the registry `["web"]` (no `"coder"`
fallback key) and a step tagged `"xyz"`, the embedded dispatcher's
worker-resolution KeyError escapes: the run aborts after its first iteration
and returns no summary — the run does not "always complete with a textual
summary, never an unhandled fault". -/
theorem c9_counterexample :
    (run_loop "g" tasksC9 dispatchC9).crashed = true ∧
    (run_loop "g" tasksC9 dispatchC9).summary = none ∧
    (run_loop "g" tasksC9 dispatchC9).dispatches = 1 := by decide

/-- Claim C9 (amended): every run performs at most 4× the initial step count
dispatched iterations, unconditionally; provided every dispatch returns
(in particular whenever worker resolution cannot fail, e.g. the registry
contains `"coder"`), the run never aborts and always returns a textual
summary; a worker invocation raising inside the dispatcher is converted to
an `"Error: ..."` result with a false success flag (and no memory entry).
A failed worker resolution, however, escapes uncaught. -/
theorem c9_termination_and_fault_conversion :
    (∀ goal agent_tasks dispatch,
        (run_loop goal agent_tasks dispatch).dispatches ≤ 4 * agent_tasks.length) ∧
    (∀ goal agent_tasks dispatch, (∀ i s, (dispatch i s).isSome = true) →
        (run_loop goal agent_tasks dispatch).crashed = false ∧
        (run_loop goal agent_tasks dispatch).summary.isSome = true) ∧
    (∀ agents proc browseProc rc mc ri step key msg,
        resolve_agent agents step.agent_type = some key →
        proc (buildStepPrompt rc mc ri step) = AgentOutcome.exn msg →
        execute_step agents proc browseProc rc mc ri step =
          some { result := "Error: " ++ msg, success := false, memory := [],
                 calls := [buildStepPrompt rc mc ri step] }) := by
  refine ⟨?_, ?_, ?_⟩
  · intro goal agent_tasks dispatch
    have hb := runLoopGo_dispatches_le dispatch
      ((create_plan_steps agent_tasks).length * 4) 0
      { steps := create_plan_steps agent_tasks, reflection_log := [],
        consecutive_failures := 0, final_answer := "" }
    have hlen : (create_plan_steps agent_tasks).length = agent_tasks.length := by
      simp [create_plan_steps]
    calc (run_loop goal agent_tasks dispatch).dispatches
        ≤ 0 + (create_plan_steps agent_tasks).length * 4 := hb
      _ = 4 * agent_tasks.length := by omega
  · intro goal agent_tasks dispatch hd
    have hnc := runLoopGo_no_crash dispatch hd
      ((create_plan_steps agent_tasks).length * 4) 0
      { steps := create_plan_steps agent_tasks, reflection_log := [],
        consecutive_failures := 0, final_answer := "" }
    refine ⟨hnc, ?_⟩
    rw [run_loop_summary_isSome]
    have : (run_loop goal agent_tasks dispatch).crashed = false := hnc
    rw [this]
    rfl
  · intro agents proc browseProc rc mc ri step key msg hres hexn
    simp only [execute_step, hres, hexn]

/-- Witness for C9 (amended) at a concrete run with a total dispatch. -/
theorem c9_witness :
    (run_loop "g" tasksC1 dispatchOk).crashed = false ∧
    (run_loop "g" tasksC1 dispatchOk).summary.isSome = true :=
  c9_termination_and_fault_conversion.2.1 "g" tasksC1 dispatchOk (fun _ _ => rfl)

/-! ## Claim C7 -/

/-- Claim C7 counterexample: a worker invocation that raises is converted to
an error result, but no execution-memory entry is appended for it — one
invocation (`calls` has length 1), zero memory entries — so "an
execution-memory entry is appended after every worker invocation" is false. -/
theorem c7_counterexample :
    execute_step ["coder"] procRaising procRaising "" "" [] stepC7 =
      some { result := "Error: boom", success := false, memory := [],
             calls := ["tulis kode"] } := by decide

/-- Claim C7 (amended): in one dispatch the resolved worker is invoked at most
twice — the second time only for the `"coder"` worker's browse-assisted
remediation — and the appended memory entries are exactly: none (first
invocation raised), one untagged entry, or the untagged first entry followed
by one entry tagged as a browse-assisted retry (exactly when a second
invocation happened); a memory entry is appended after every invocation that
returns, but not after one that raises. -/
theorem c7_dispatcher_remediation :
    ∀ agents proc browseProc rc mc ri step out,
    execute_step agents proc browseProc rc mc ri step = some out →
    ((out.calls.length = 1 ∨ out.calls.length = 2) ∧
     (out.memory = [] ∨
       (∃ e1, out.memory = [e1] ∧ e1.retry_with_browse = false) ∨
       (∃ e1 e2, out.memory = [e1, e2] ∧ e1.retry_with_browse = false ∧
         e2.retry_with_browse = true ∧ out.calls.length = 2)) ∧
     (out.calls.length = 2 → resolve_agent agents step.agent_type = some "coder")) := by
  intro agents proc browseProc rc mc ri step out h
  unfold execute_step at h
  cases hres : resolve_agent agents step.agent_type with
  | none => rw [hres] at h; exact absurd h (by simp)
  | some key =>
    simp only [hres] at h
    cases hproc : proc (buildStepPrompt rc mc ri step) with
    | exn msg =>
      simp only [hproc] at h
      injection h with h'
      subst h'
      refine ⟨Or.inl rfl, Or.inl rfl, ?_⟩
      intro h2
      exact absurd h2 (by simp)
    | ok answer success =>
      simp only [hproc] at h
      by_cases hcond : (!success && (key == "coder")) = true
      · have hkey : key = "coder" := by
          have := (Bool.and_eq_true _ _).mp hcond
          exact beq_iff_eq.mp this.2
        rw [if_pos hcond] at h
        cases hhand : handle_install_failure_with_browsing agents browseProc step answer with
        | none =>
          simp only [hhand] at h
          injection h with h'
          subst h'
          refine ⟨Or.inl rfl, Or.inr (Or.inl ⟨_, rfl, rfl⟩), ?_⟩
          intro h2
          exact absurd h2 (by simp)
        | some browse_fix =>
          simp only [hhand] at h
          by_cases hbf : (browse_fix == "") = true
          · rw [if_pos hbf] at h
            injection h with h'
            subst h'
            refine ⟨Or.inl rfl, Or.inr (Or.inl ⟨_, rfl, rfl⟩), ?_⟩
            intro h2
            exact absurd h2 (by simp)
          · rw [if_neg hbf] at h
            cases hproc2 : proc browse_fix with
            | exn msg2 =>
              simp only [hproc2] at h
              injection h with h'
              subst h'
              refine ⟨Or.inr rfl, Or.inr (Or.inl ⟨_, rfl, rfl⟩), ?_⟩
              intro _
              exact congrArg some hkey
            | ok a2 s2 =>
              simp only [hproc2] at h
              injection h with h'
              subst h'
              refine ⟨Or.inr rfl, Or.inr (Or.inr ⟨_, _, rfl, rfl, rfl, rfl⟩), ?_⟩
              intro _
              exact congrArg some hkey
      · rw [if_neg hcond] at h
        injection h with h'
        subst h'
        refine ⟨Or.inl rfl, Or.inr (Or.inl ⟨_, rfl, rfl⟩), ?_⟩
        intro h2
        exact absurd h2 (by simp)

/-- Witness for C7 (amended) at a concrete successful dispatch. -/
theorem c7_witness :
    ({ result := "fine", success := true,
       memory := [{ step_id := 1, agent := "coder", success := true,
                    answer_preview := "fine", retry_with_browse := false }],
       calls := ["tulis kode"] } : ExecResult).calls.length = 1 ∨
    ({ result := "fine", success := true,
       memory := [{ step_id := 1, agent := "coder", success := true,
                    answer_preview := "fine", retry_with_browse := false }],
       calls := ["tulis kode"] } : ExecResult).calls.length = 2 :=
  (c7_dispatcher_remediation ["coder"] procOkTrue procOkTrue "" "" [] stepC7 _ (by decide)).1

/-! ## Claim C6 -/

/-- Claim C6: when the failed step's error text matches the
missing-dependency category (`"no module named"` or `"import"` in the lowered
text), `revise_plan` appends exactly two new steps — first a browse step
(capability `"web"`, attempt budget 2, inheriting the failed step's
dependencies), then a retry step (capability `"coder"`, attempt budget 2,
depending exactly on the browse step's identifier, whose description embeds
the original task, the different-approach instruction, and the truncated
prior error) — and leaves every existing step untouched. Confirmed as
stated. -/
theorem c6_revise_missing_dependency :
    ∀ steps (fs : TaskStep),
    (strContains (strLower fs.error) "no module named" = true ∨
     strContains (strLower fs.error) "import" = true) →
    ∃ b r, revise_plan steps fs = steps ++ [b, r] ∧
      b.id = steps.length + 1 ∧ b.agent_type = "web" ∧ b.max_attempts = 2 ∧
      b.status = "pending" ∧ b.attempts = 0 ∧ b.dependencies = fs.dependencies ∧
      r.id = steps.length + 2 ∧ r.agent_type = "coder" ∧ r.max_attempts = 2 ∧
      r.status = "pending" ∧ r.attempts = 0 ∧ r.dependencies = [toString b.id] ∧
      strContains r.description fs.description = true ∧
      strContains r.description "Gunakan pendekatan BERBEDA" = true ∧
      strContains r.description
        (strTake (if fs.error == "" then "Unknown error" else fs.error) 500) = true := by
  intro steps fs h
  have hcond : (strContains (strLower fs.error) "no module named" ||
      strContains (strLower fs.error) "import") = true := by
    rcases h with h | h <;> simp [h]
  unfold revise_plan
  simp only [if_pos hcond]
  refine ⟨{ id := steps.length + 1,
            description := browse_step_description
              ((searchNoModule (strLower fs.error).toList).getD "yang dibutuhkan"),
            agent_type := "web", max_attempts := 2, dependencies := fs.dependencies },
          { id := steps.length + 2,
            description := retry_base_description
                ((searchNoModule (strLower fs.error).toList).getD "yang dibutuhkan") fs ++
              error_suffix fs,
            agent_type := "coder", max_attempts := 2,
            dependencies := [toString (steps.length + 1)] },
          ?_, rfl, rfl, rfl, rfl, rfl, rfl, rfl, rfl, rfl, rfl, rfl, rfl, ?_, ?_, ?_⟩
  · simp [List.length_append, List.append_assoc]
  · show strContains (retry_base_description
        ((searchNoModule (strLower fs.error).toList).getD "yang dibutuhkan") fs ++
        error_suffix fs) fs.description = true
    unfold retry_base_description
    exact strContains_append_left _ (strContains_suffix_self _ _)
  · show strContains (retry_base_description
        ((searchNoModule (strLower fs.error).toList).getD "yang dibutuhkan") fs ++
        error_suffix fs) "Gunakan pendekatan BERBEDA" = true
    apply strContains_append_right
    unfold error_suffix
    apply strContains_append_left
    apply strContains_append_right
    decide
  · show strContains (retry_base_description
        ((searchNoModule (strLower fs.error).toList).getD "yang dibutuhkan") fs ++
        error_suffix fs)
        (strTake (if fs.error == "" then "Unknown error" else fs.error) 500) = true
    apply strContains_append_right
    unfold error_suffix
    apply strContains_append_left
    apply strContains_append_left
    apply strContains_append_left
    exact strContains_suffix_self _ _

/-- Witness for C6 at a concrete failed step with a missing-module error. -/
theorem c6_witness : (revise_plan [] failedStepC6).length = 2 := by
  obtain ⟨b, r, heq, _⟩ := c6_revise_missing_dependency [] failedStepC6 (Or.inl (by decide))
  rw [heq]
  rfl

/-! ## Claim C3 -/

theorem scRemediation_gating (installOk : String → Bool) (hasBrowser : Bool)
    (browse : String → AgentOutcome) (installed : List String) (fb : String)
    (h : (scRemediation installOk hasBrowser browse installed fb).2.2 = true) :
    hasBrowser = true ∧ (auto_install_from_error installOk installed fb).2 = false := by
  unfold scRemediation at h
  by_cases hsig : (strContains (strLower fb) "no module named" ||
      strContains (strLower fb) "modulenotfounderror") = true
  · simp only [if_pos hsig] at h
    cases hq : searchNoModuleQuoted fb.toList with
    | none =>
      simp only [hq] at h
      exact absurd h (by simp)
    | some g =>
      simp only [hq] at h
      by_cases hbr : (!(auto_install_from_error installOk installed fb).2 && hasBrowser) = true
      · have hand := (Bool.and_eq_true _ _).mp hbr
        refine ⟨hand.2, ?_⟩
        have h1 := hand.1
        revert h1
        cases (auto_install_from_error installOk installed fb).2 <;> simp
      · rw [if_neg hbr] at h
        exact absurd h (by simp)
  · simp only [if_neg hsig] at h
    exact absurd h (by simp)

theorem selfCorrectGo_all_bad (llm : Nat → String) (execMod : Nat → Bool × String)
    (installOk : String → Bool) (hasBrowser : Bool) (browse : String → AgentOutcome)
    (maxCorr : Nat) :
    ∀ fuel attempt installed fb ans calls,
    (∀ i, attempt < i → i ≤ attempt + fuel →
        strContains (llm i) "```" = false ∨ (execMod i).1 = false ∨
        has_error_in_output (execMod i).2 = true) →
    (selfCorrectGo llm execMod installOk hasBrowser browse maxCorr fuel attempt installed
        fb ans calls).success = false ∧
    (selfCorrectGo llm execMod installOk hasBrowser browse maxCorr fuel attempt installed
        fb ans calls).llmCalls = calls + fuel := by
  intro fuel
  induction fuel with
  | zero => intro attempt installed fb ans calls _; exact ⟨rfl, rfl⟩
  | succ fuel ih =>
    intro attempt installed fb ans calls hbad
    have hb := hbad (attempt + 1) (by omega) (by omega)
    have harg : ∀ i, attempt + 1 < i → i ≤ attempt + 1 + fuel →
        strContains (llm i) "```" = false ∨ (execMod i).1 = false ∨
        has_error_in_output (execMod i).2 = true :=
      fun i h1 h2 => hbad i (by omega) (by omega)
    simp only [selfCorrectGo]
    by_cases hcode : strContains (llm (attempt + 1)) "```" = true
    · rw [if_pos hcode]
      have hnot : ¬ ((execMod (attempt + 1)).1 &&
          !(has_error_in_output (execMod (attempt + 1)).2)) = true := by
        rcases hb with h | h | h
        · exact absurd hcode (by simp [h])
        · simp [h]
        · simp [h]
      rw [if_neg hnot]
      obtain ⟨hs, hc⟩ := ih (attempt + 1)
        (scRemediation installOk hasBrowser browse installed fb).1
        (execMod (attempt + 1)).2 (llm (attempt + 1)) (calls + 1) harg
      exact ⟨hs, by rw [hc]; omega⟩
    · rw [if_neg hcode]
      obtain ⟨hs, hc⟩ := ih (attempt + 1)
        (scRemediation installOk hasBrowser browse installed fb).1
        fb ans (calls + 1) harg
      exact ⟨hs, by rw [hc]; omega⟩

theorem selfCorrectGo_first_good (llm : Nat → String) (execMod : Nat → Bool × String)
    (installOk : String → Bool) (hasBrowser : Bool) (browse : String → AgentOutcome)
    (maxCorr : Nat) (fuel attempt : Nat) (installed : List String)
    (fb ans : String) (calls : Nat)
    (hcode : strContains (llm (attempt + 1)) "```" = true)
    (hexec : (execMod (attempt + 1)).1 = true)
    (herr : has_error_in_output (execMod (attempt + 1)).2 = false) :
    selfCorrectGo llm execMod installOk hasBrowser browse maxCorr (fuel + 1) attempt
        installed fb ans calls =
      { success := true, answer := llm (attempt + 1), feedback := (execMod (attempt + 1)).2,
        llmCalls := calls + 1 } := by
  simp only [selfCorrectGo]
  rw [if_pos hcode, if_pos (by simp [hexec, herr])]

theorem selfCorrectGo_no_code (llm : Nat → String) (execMod : Nat → Bool × String)
    (installOk : String → Bool) (hasBrowser : Bool) (browse : String → AgentOutcome)
    (maxCorr : Nat) :
    ∀ fuel attempt installed fb ans calls,
    (∀ i, attempt < i → i ≤ attempt + fuel → strContains (llm i) "```" = false) →
    selfCorrectGo llm execMod installOk hasBrowser browse maxCorr fuel attempt installed
        fb ans calls =
      { success := false, answer := ans, feedback := fb, llmCalls := calls + fuel } := by
  intro fuel
  induction fuel with
  | zero => intro attempt installed fb ans calls _; rfl
  | succ fuel ih =>
    intro attempt installed fb ans calls hnc
    have hb := hnc (attempt + 1) (by omega) (by omega)
    simp only [selfCorrectGo]
    rw [if_neg (by simp [hb])]
    rw [ih (attempt + 1) (scRemediation installOk hasBrowser browse installed fb).1
      fb ans (calls + 1) (fun i h1 h2 => hnc i (by omega) (by omega))]
    have : calls + 1 + fuel = calls + (fuel + 1) := by omega
    rw [this]

theorem selfCorrectGo_success_at (llm : Nat → String) (execMod : Nat → Bool × String)
    (installOk : String → Bool) (hasBrowser : Bool) (browse : String → AgentOutcome)
    (maxCorr : Nat) :
    ∀ fuel attempt installed fb ans calls k,
    attempt < k → k ≤ attempt + fuel →
    (∀ i, attempt < i → i < k →
        strContains (llm i) "```" = false ∨ (execMod i).1 = false ∨
        has_error_in_output (execMod i).2 = true) →
    strContains (llm k) "```" = true →
    (execMod k).1 = true →
    has_error_in_output (execMod k).2 = false →
    selfCorrectGo llm execMod installOk hasBrowser browse maxCorr fuel attempt installed
        fb ans calls =
      { success := true, answer := llm k, feedback := (execMod k).2,
        llmCalls := calls + (k - attempt) } := by
  intro fuel
  induction fuel with
  | zero => intro attempt installed fb ans calls k h1 h2 _ _ _ _; omega
  | succ fuel ih =>
    intro attempt installed fb ans calls k h1 h2 hbad hcode hexec herr
    by_cases hk : k = attempt + 1
    · subst hk
      rw [selfCorrectGo_first_good llm execMod installOk hasBrowser browse maxCorr
        fuel attempt installed fb ans calls hcode hexec herr]
      have harith : calls + 1 = calls + (attempt + 1 - attempt) := by omega
      rw [harith]
    · have hlt : attempt + 1 < k := by omega
      have hb := hbad (attempt + 1) (by omega) (by omega)
      simp only [selfCorrectGo]
      by_cases hc1 : strContains (llm (attempt + 1)) "```" = true
      · rw [if_pos hc1]
        have hnot : ¬ ((execMod (attempt + 1)).1 &&
            !(has_error_in_output (execMod (attempt + 1)).2)) = true := by
          rcases hb with h | h | h
          · exact absurd hc1 (by simp [h])
          · simp [h]
          · simp [h]
        rw [if_neg hnot]
        rw [ih (attempt + 1) (scRemediation installOk hasBrowser browse installed fb).1
          (execMod (attempt + 1)).2 (llm (attempt + 1)) (calls + 1) k hlt (by omega)
          (fun i hi1 hi2 => hbad i (by omega) hi2) hcode hexec herr]
        have harith : calls + 1 + (k - (attempt + 1)) = calls + (k - attempt) := by omega
        rw [harith]
      · rw [if_neg hc1]
        rw [ih (attempt + 1) (scRemediation installOk hasBrowser browse installed fb).1
          fb ans (calls + 1) k hlt (by omega)
          (fun i hi1 hi2 => hbad i (by omega) hi2) hcode hexec herr]
        have harith : calls + 1 + (k - (attempt + 1)) = calls + (k - attempt) := by omega
        rw [harith]

theorem selfCorrectGo_last_code (llm : Nat → String) (execMod : Nat → Bool × String)
    (installOk : String → Bool) (hasBrowser : Bool) (browse : String → AgentOutcome)
    (maxCorr : Nat) :
    ∀ fuel attempt installed fb ans calls j,
    (∀ i, attempt < i → i ≤ attempt + fuel →
        strContains (llm i) "```" = false ∨ (execMod i).1 = false ∨
        has_error_in_output (execMod i).2 = true) →
    attempt < j → j ≤ attempt + fuel →
    strContains (llm j) "```" = true →
    (∀ i, j < i → i ≤ attempt + fuel → strContains (llm i) "```" = false) →
    selfCorrectGo llm execMod installOk hasBrowser browse maxCorr fuel attempt installed
        fb ans calls =
      { success := false, answer := llm j, feedback := (execMod j).2,
        llmCalls := calls + fuel } := by
  intro fuel
  induction fuel with
  | zero => intro attempt installed fb ans calls j _ h1 h2 _ _; omega
  | succ fuel ih =>
    intro attempt installed fb ans calls j hbad h1 h2 hjcode hlast
    have hb := hbad (attempt + 1) (by omega) (by omega)
    simp only [selfCorrectGo]
    by_cases hc1 : strContains (llm (attempt + 1)) "```" = true
    · rw [if_pos hc1]
      have hnot : ¬ ((execMod (attempt + 1)).1 &&
          !(has_error_in_output (execMod (attempt + 1)).2)) = true := by
        rcases hb with h | h | h
        · exact absurd hc1 (by simp [h])
        · simp [h]
        · simp [h]
      rw [if_neg hnot]
      by_cases hj : j = attempt + 1
      · subst hj
        rw [selfCorrectGo_no_code llm execMod installOk hasBrowser browse maxCorr fuel
          (attempt + 1) (scRemediation installOk hasBrowser browse installed fb).1
          (execMod (attempt + 1)).2 (llm (attempt + 1)) (calls + 1)
          (fun i hi1 hi2 => hlast i hi1 (by omega))]
        have harith : calls + 1 + fuel = calls + (fuel + 1) := by omega
        rw [harith]
      · have hj1 : attempt + 1 < j := by omega
        rw [ih (attempt + 1) (scRemediation installOk hasBrowser browse installed fb).1
          (execMod (attempt + 1)).2 (llm (attempt + 1)) (calls + 1) j
          (fun i hi1 hi2 => hbad i (by omega) (by omega)) hj1 (by omega) hjcode
          (fun i hi1 hi2 => hlast i hi1 (by omega))]
        have harith : calls + 1 + fuel = calls + (fuel + 1) := by omega
        rw [harith]
    · rw [if_neg hc1]
      have hj1 : attempt + 1 < j := by
        rcases Nat.lt_or_ge (attempt + 1) j with h | h
        · exact h
        · exfalso
          have hje : j = attempt + 1 := by omega
          rw [hje] at hjcode
          exact hc1 hjcode
      rw [ih (attempt + 1) (scRemediation installOk hasBrowser browse installed fb).1
        fb ans (calls + 1) j
        (fun i hi1 hi2 => hbad i (by omega) (by omega)) hj1 (by omega) hjcode
        (fun i hi1 hi2 => hlast i hi1 (by omega))]
      have harith : calls + 1 + fuel = calls + (fuel + 1) := by omega
      rw [harith]

/-- Claim C3 counterexample: with an LLM that never produces a code block, the
loop performs exactly 3 regeneration attempts and then returns failure — but
with the ORIGINAL output and feedback, not the 3rd attempt's output ("tidak
ada kode 3"), so "returns failure together with the 3rd (last) attempt's
output and feedback" is false. -/
theorem c3_counterexample :
    self_correct_execution llmNoCode execNeutral (fun _ => false) false
        (fun _ => .ok "" true) "orig" "Error: awal" =
      { success := false, answer := "orig", feedback := "Error: awal", llmCalls := 3 } ∧
    llmNoCode 3 = "tidak ada kode 3" ∧
    "orig" ≠ "tidak ada kode 3" := by decide

/-- Claim C3 (amended): with attempt budget 3, an attempt whose feedback
carries a missing-module signature invokes the direct-install routine first
and requests browse help only when that routine reports failure; if no
attempt succeeds, exactly 3 regeneration attempts occur (code-less attempts
count against the budget) and the loop returns failure with the output and
feedback of the last executed (code-carrying) attempt — the original output
and feedback when no attempt produced a code block; it returns success as
soon as an attempt executes successfully with no error-indicator substrings
in its feedback. -/
theorem c3_self_correction_loop :
    (∀ installOk hasBrowser browse installed fb,
        (scRemediation installOk hasBrowser browse installed fb).2.2 = true →
        hasBrowser = true ∧ (auto_install_from_error installOk installed fb).2 = false) ∧
    (∀ llm execMod installOk hasBrowser browse orig fb,
        (∀ i, 1 ≤ i → i ≤ 3 →
          strContains (llm i) "```" = false ∨ (execMod i).1 = false ∨
          has_error_in_output (execMod i).2 = true) →
        (self_correct_execution llm execMod installOk hasBrowser browse orig fb).success
            = false ∧
        (self_correct_execution llm execMod installOk hasBrowser browse orig fb).llmCalls
            = 3) ∧
    (∀ llm execMod installOk hasBrowser browse orig fb j,
        (∀ i, 1 ≤ i → i ≤ 3 →
          strContains (llm i) "```" = false ∨ (execMod i).1 = false ∨
          has_error_in_output (execMod i).2 = true) →
        1 ≤ j → j ≤ 3 →
        strContains (llm j) "```" = true →
        (∀ i, j < i → i ≤ 3 → strContains (llm i) "```" = false) →
        self_correct_execution llm execMod installOk hasBrowser browse orig fb =
          { success := false, answer := llm j, feedback := (execMod j).2,
            llmCalls := 3 }) ∧
    (∀ llm execMod installOk hasBrowser browse orig fb,
        (∀ i, 1 ≤ i → i ≤ 3 → strContains (llm i) "```" = false) →
        self_correct_execution llm execMod installOk hasBrowser browse orig fb =
          { success := false, answer := orig, feedback := fb, llmCalls := 3 }) ∧
    (∀ llm execMod installOk hasBrowser browse orig fb k,
        1 ≤ k → k ≤ 3 →
        (∀ i, 1 ≤ i → i < k →
          strContains (llm i) "```" = false ∨ (execMod i).1 = false ∨
          has_error_in_output (execMod i).2 = true) →
        strContains (llm k) "```" = true → (execMod k).1 = true →
        has_error_in_output (execMod k).2 = false →
        self_correct_execution llm execMod installOk hasBrowser browse orig fb =
          { success := true, answer := llm k, feedback := (execMod k).2,
            llmCalls := k }) := by
  refine ⟨scRemediation_gating, ?_, ?_, ?_, ?_⟩
  · intro llm execMod installOk hasBrowser browse orig fb hbad
    exact selfCorrectGo_all_bad llm execMod installOk hasBrowser browse
      self_correction_max 3 0 [] fb orig 0 (fun i h1 h2 => hbad i h1 h2)
  · intro llm execMod installOk hasBrowser browse orig fb j hbad hj1 hj3 hjcode hlast
    exact selfCorrectGo_last_code llm execMod installOk hasBrowser browse
      self_correction_max 3 0 [] fb orig 0 j (fun i h1 h2 => hbad i h1 h2)
      hj1 hj3 hjcode (fun i h1 h2 => hlast i h1 h2)
  · intro llm execMod installOk hasBrowser browse orig fb hnc
    exact selfCorrectGo_no_code llm execMod installOk hasBrowser browse
      self_correction_max 3 0 [] fb orig 0 (fun i h1 h2 => hnc i h1 h2)
  · intro llm execMod installOk hasBrowser browse orig fb k hk1 hk3 hbad hcode hexec herr
    have heq := selfCorrectGo_success_at llm execMod installOk hasBrowser browse
      self_correction_max self_correction_max 0 [] fb orig 0 k hk1
      (by simp only [self_correction_max]; omega)
      (fun i h1 h2 => hbad i h1 h2) hcode hexec herr
    have harith : (0 : Nat) + (k - 0) = k := by omega
    rw [harith] at heq
    exact heq

/-- Witness for C3 (amended): immediate success on a clean first attempt. -/
theorem c3_witness :
    self_correct_execution llmCodeOk execClean (fun _ => false) false
        (fun _ => .ok "" true) "orig" "Error: awal" =
      { success := true, answer := llmCodeOk 1, feedback := (execClean 1).2,
        llmCalls := 1 } :=
  c3_self_correction_loop.2.2.2.2 llmCodeOk execClean (fun _ => false) false
    (fun _ => .ok "" true) "orig" "Error: awal" 1 (by decide) (by decide)
    (fun i h1 h2 => absurd h2 (by omega)) (by decide) (by decide) (by decide)
